import Mathlib

/-!
The service registry `mu::modularity::ModulesIoC`.

A shallow embedding of `src/framework/global/modularity/moduleinfo.h` and
`src/framework/global/modularity/modulesioc.h`.

* `std::string`, `std::string_view`: `Str`, a list of characters.
* `std::size_t`: a natural number below `2^64`; arithmetic is taken modulo `2^64`
  and `std::string_view::npos` is `2^64 - 1`.
* pointers (`I*`, `IModuleCreator*`, `std::shared_ptr<void>`): the address, a natural
  number, `0` being the null pointer. Two handles refer to the same object exactly
  when the addresses are equal (`operator==` on `std::shared_ptr` compares `get()`).
* `std::map<std::string_view, Service>`: an association list with at most one entry
  per key. No operation of the class iterates over the map, so the position of an
  entry in the list is not observable.
* the process: a state (`ModulesIoC`) threaded through every member function, and a
  result (`Res`) telling whether the call returned, the process was terminated
  (`std::abort`, or a failed `assert` in a build without `NDEBUG`), or a
  `std::out_of_range` exception left the call.
-/

namespace mu.modularity

/-- Text: the characters of a `std::string` or `std::string_view`. -/
abbrev Str := List Char

/-- The constant `std::string_view::npos`, the largest `std::size_t`. -/
def npos : Nat := 2 ^ 64 - 1

/-- Addition of `std::size_t` values. -/
def sizeAdd (a b : Nat) : Nat := (a + b) % 2 ^ 64

/-- Subtraction of `std::size_t` values (both below `2^64`). -/
def sizeSub (a b : Nat) : Nat := (a + 2 ^ 64 - b) % 2 ^ 64

/-- The scan of `std::string_view::find`: `s` is the text from position `i` on; the
result is the first position at or after `i` where `pat` starts, or `npos`. -/
def findFrom (pat : Str) : Str → Nat → Nat
  | [], i => if pat.isPrefixOf [] then i else npos
  | c :: cs, i => if pat.isPrefixOf (c :: cs) then i else findFrom pat cs (i + 1)

/-- The call `sig.find(pat, pos)`. -/
def find (sig pat : Str) (pos : Nat) : Nat :=
  if sig.length < pos then npos else findFrom pat (sig.drop pos) pos

/-- The backward scan of `std::string_view::rfind`: tries the positions
`k, k - 1, ..., 0` and returns the first one where `pat` starts, or `npos`. -/
def rfindDown (pat sig : Str) : Nat → Nat
  | 0 => if pat.isPrefixOf sig then 0 else npos
  | k + 1 => if pat.isPrefixOf (sig.drop (k + 1)) then k + 1 else rfindDown pat sig k

/-- The call `sig.rfind(pat, pos)`: the last position at most `pos` where `pat` starts. -/
def rfind (sig pat : Str) (pos : Nat) : Nat :=
  if pat.length ≤ sig.length then rfindDown pat sig (min (sig.length - pat.length) pos)
  else npos

/-- The call `sig.substr(pos, n)`; `none` is the exception `std::out_of_range`, thrown
when `pos > sig.size()`. -/
def substr (sig : Str) (pos n : Nat) : Option Str :=
  if sig.length < pos then none
  else some ((sig.drop pos).take (min n (sig.length - pos)))

/-- The struct `InterfaceInfo`. -/
structure InterfaceInfo where
  id : Str
  module : Str
  internal : Bool
  deriving DecidableEq, Repr

/-- The function `moduleNameByInterface` of `moduleinfo.h`. -/
def moduleNameByInterface (sig : Str) : Option Str :=
  let InterfaceBegin : Str := "[with ".toList
  let Colon : Str := "::".toList
  let beginInterface := find sig InterfaceBegin 0
  if beginInterface = npos then some sig
  else
    let beginModule := find sig Colon beginInterface
    if beginModule = npos then some sig
    else
      let beginModule := sizeAdd beginModule 2
      let endModule := find sig Colon beginModule
      if endModule = npos then
        substr sig beginModule (sizeSub (sizeSub sig.length beginModule) 1)
      else
        substr sig beginModule (sizeSub endModule beginModule)

/-- The function `interfaceName` of `moduleinfo.h`. -/
def interfaceName (sig : Str) : Option Str :=
  let InterfaceEnd : Str := "]".toList
  let Colon : Str := "::".toList
  let endInterface := find sig InterfaceEnd 0
  if endInterface = npos then some sig
  else
    let beginInterface := rfind sig Colon endInterface
    if beginInterface = npos then some sig
    else
      let beginInterface := sizeAdd beginInterface 2
      substr sig beginInterface (sizeSub endInterface beginInterface)

/-- The function template `getInterfaceInfo<I>()`. The capability type `I` is given by
`sig`, the text of `__PRETTY_FUNCTION__` inside the instantiation for `I`. The result
is `none` when one of the two extractions throws. -/
def getInterfaceInfo (sig : Str) : Option InterfaceInfo :=
  match interfaceName sig, moduleNameByInterface sig with
  | some i, some m => some ⟨i, m, false⟩
  | _, _ => none

/-- The struct `ModulesIoC::Service`: the creator `c`, the registering module and the
instance `p`. -/
structure Service where
  c : Nat
  sourceModule : Str
  p : Nat
  deriving DecidableEq, Repr

/-- The container `std::map<std::string_view, Service>`. -/
abbrev ServiceMap := List (Str × Service)

/-- The call `m.find(k)`: the entry stored under `k`, `none` standing for `m.end()`. -/
def mapFind (k : Str) : ServiceMap → Option Service
  | [] => none
  | (k', v) :: m => if k' = k then some v else mapFind k m

/-- The call `m.erase(k)`. -/
def mapErase (k : Str) : ServiceMap → ServiceMap
  | [] => []
  | (k', v) :: m => if k' = k then mapErase k m else (k', v) :: mapErase k m

/-- The assignment `m[k] = v`: overwrites the entry of `k`, or inserts one. -/
def mapAssign (k : Str) (v : Service) : ServiceMap → ServiceMap
  | [] => [(k, v)]
  | (k', v') :: m => if k' = k then (k, v) :: m else (k', v') :: mapAssign k v m

/-- A call of a public member that writes `m_map`, made from inside
`IModuleCreator::create()` on the singleton `ModulesIoC::instance()`:
`registerInstance` is one of the six `registerExport*` / `registerInternal*` members
that take an instance, `registerCreator` one of the two that take a creator. The other
public members write `m_map` only through these: `resolve` and `resolveRequiredImport`
through the creators they call, `unregisterIfRegistered` as a `resolve` followed or not
by `unregister`. -/
inductive Reentry where
  | registerInstance (sig module : Str) (p : Nat)
  | registerCreator (sig module : Str) (c : Nat)
  | unregister (sig : Str)
  | reset

/-- What a call of `Reentry` does to `m_map`: a registration stores its entry when the
provider is not null and the identifier has no entry, `unregister` erases the entry of
the identifier, `reset` clears the map. -/
def applyReentry : Reentry → ServiceMap → ServiceMap
  | .registerInstance sig module p, m =>
    if p = 0 then m
    else
      match getInterfaceInfo sig with
      | none => m
      | some info =>
        match mapFind info.id m with
        | some _ => m
        | none => mapAssign info.id { c := 0, sourceModule := module, p := p } m
  | .registerCreator sig module c, m =>
    if c = 0 then m
    else
      match getInterfaceInfo sig with
      | none => m
      | some info =>
        match mapFind info.id m with
        | some _ => m
        | none => mapAssign info.id { c := c, sourceModule := module, p := 0 } m
  | .unregister sig, m =>
    match getInterfaceInfo sig with
    | none => m
    | some info => mapErase info.id m
  | .reset, _ => []

/-- What a sequence of calls does to `m_map`, in order. -/
def applyReentries : List Reentry → ServiceMap → ServiceMap
  | [], m => m
  | r :: rs, m => applyReentries rs (applyReentry r m)

/-- What a call `c->create()` gives: the handle of the created object, the world after
the call, and the calls writing `m_map` that it made on the singleton, in order. -/
structure Created (W : Type) where
  handle : Nat
  world : W
  calls : List Reentry

/-- What a member function does that is visible outside the registry: a line written
to `std::cerr`, or a call of `IModuleCreator::create` on the creator at an address. -/
inductive Event where
  | cerr (line : Str)
  | create (c : Nat)
  deriving DecidableEq, Repr

/-- The build and the surroundings of the registry. `ndebug` tells whether `NDEBUG`
is defined. `create c m w` is the virtual call `c->create()` made while the registry
holds `m` and the world (the objects outside the registry) is `w`. `IModuleCreator` is
declared in `imoduleinterface.h`: `create` is any code, it can read the registry and
call the public members of the singleton, so it is given `m` and its result lists the
calls that write `m_map`. The creator is taken to return; the trace holds what the
member functions of this call write, not what a creator writes. -/
structure Env (W : Type) where
  ndebug : Bool
  create : Nat → ServiceMap → W → Created W

/-- The class `ModulesIoC` together with what surrounds it: the member `m_map`, the
events so far (oldest first) and the world the creators act on. -/
structure ModulesIoC (W : Type) where
  m_map : ServiceMap
  trace : List Event
  world : W

/-- How a call ends: it returns a value, or the process is terminated (`std::abort`
or a failed `assert`), or `std::out_of_range` is thrown. Each carries the state at
that point. -/
inductive Res (W α : Type) where
  | ret (a : α) (s : ModulesIoC W)
  | aborted (s : ModulesIoC W)
  | threw (s : ModulesIoC W)

/-- The state at the end of a call. -/
def Res.state {W α : Type} : Res W α → ModulesIoC W
  | .ret _ s => s
  | .aborted s => s
  | .threw s => s

/-- The value a call returned, if it returned. -/
def Res.value {W α : Type} : Res W α → Option α
  | .ret a _ => some a
  | .aborted _ => none
  | .threw _ => none

/-- Sequencing of two statements: the second runs only if the first returned. -/
def Res.andThen {W α β : Type} (r : Res W α) (f : α → ModulesIoC W → Res W β) : Res W β :=
  match r with
  | .ret a s => f a s
  | .aborted s => .aborted s
  | .threw s => .threw s

/-- The statement `std::cerr << ... << std::endl`. -/
def writeCerr {W : Type} (line : Str) (s : ModulesIoC W) : ModulesIoC W :=
  { s with trace := s.trace ++ [Event.cerr line] }

/-- The macro `assert(e)` of `<cassert>`: nothing when `NDEBUG` is defined or `e`
holds, otherwise the process is terminated. -/
def cAssert {W : Type} (env : Env W) (e : Bool) (s : ModulesIoC W) : Res W Unit :=
  if env.ndebug then .ret () s
  else if e then .ret () s
  else .aborted s

/-- The member `ModulesIoC::unregisterService`. -/
def unregisterService {W : Type} (info : InterfaceInfo) (s : ModulesIoC W) : Res W Unit :=
  .ret () { s with m_map := mapErase info.id s.m_map }

/-- The line `registerService` writes on a double registration. -/
def doubleRegisterLine (module : Str) (info : InterfaceInfo) (first : Str) : Str :=
  module ++ ": double register:".toList ++ info.id ++ ", first register in".toList ++ first

/-- The member `ModulesIoC::registerService`. -/
def registerService {W : Type} (env : Env W) (module : Str) (info : InterfaceInfo)
    (p c : Nat) (s : ModulesIoC W) : Res W Unit :=
  match mapFind info.id s.m_map with
  | some found =>
    (cAssert env false (writeCerr (doubleRegisterLine module info found.sourceModule) s)).andThen
      fun _ s1 => .ret () s1
  | none =>
    let inj : Service := { c := c, sourceModule := module, p := p }
    .ret () { s with m_map := mapAssign info.id inj s.m_map }

/-- The line `doResolvePtrByInfo` writes when an internal interface is used from
another module. -/
def internalUsageLine (usageModule : Str) (info : InterfaceInfo) (callInfo : Str) : Str :=
  "Assertion failed!! Interface '".toList ++ info.id ++ "' is internal".toList
    ++ ", usage module: '".toList ++ usageModule ++ "'".toList
    ++ ", interface module: '".toList ++ info.module ++ "'".toList
    ++ ", called from: ".toList ++ (if callInfo.isEmpty then "unknown".toList else callInfo)

/-- The first statement of `doResolvePtrByInfo`: the check of an internal interface. -/
def checkInternal {W : Type} (env : Env W) (usageModule : Str) (info : InterfaceInfo)
    (callInfo : Str) (s : ModulesIoC W) : Res W Unit :=
  if info.internal then
    if usageModule ≠ info.module then
      let s1 := writeCerr (internalUsageLine usageModule info callInfo) s
      if env.ndebug then .ret () s1 else .aborted s1
    else .ret () s
  else .ret () s

/-- The rest of `doResolvePtrByInfo`: the lookup in `m_map`. -/
def lookupService {W : Type} (env : Env W) (info : InterfaceInfo) (s : ModulesIoC W) :
    Res W Nat :=
  match mapFind info.id s.m_map with
  | none => .ret 0 s
  | some inj =>
    if inj.p ≠ 0 then .ret inj.p s
    else if inj.c ≠ 0 then
      let r := env.create inj.c s.m_map s.world
      .ret r.handle
        { m_map := applyReentries r.calls s.m_map,
          trace := s.trace ++ [Event.create inj.c],
          world := r.world }
    else .ret 0 s

/-- The member `ModulesIoC::doResolvePtrByInfo`. -/
def doResolvePtrByInfo {W : Type} (env : Env W) (usageModule : Str) (info : InterfaceInfo)
    (callInfo : Str) (s : ModulesIoC W) : Res W Nat :=
  (checkInternal env usageModule info callInfo s).andThen fun _ s1 => lookupService env info s1

/-- The evaluation of `getInterfaceInfo<I>()` inside a member function. -/
def interfaceInfoOf {W : Type} (sig : Str) (s : ModulesIoC W) : Res W InterfaceInfo :=
  match getInterfaceInfo sig with
  | some info => .ret info s
  | none => .threw s

/-- The member `registerExportCreator<I>(module, c)`. -/
def registerExportCreator {W : Type} (env : Env W) (sig module : Str) (c : Nat)
    (s : ModulesIoC W) : Res W Unit :=
  if c = 0 then (cAssert env (c != 0) s).andThen fun _ s1 => .ret () s1
  else (interfaceInfoOf sig s).andThen fun info s1 => registerService env module info 0 c s1

/-- The member `registerExport<I>(module, std::shared_ptr<I> p)`. -/
def registerExportShared {W : Type} (env : Env W) (sig module : Str) (p : Nat)
    (s : ModulesIoC W) : Res W Unit :=
  if p = 0 then (cAssert env (p != 0) s).andThen fun _ s1 => .ret () s1
  else (interfaceInfoOf sig s).andThen fun info s1 => registerService env module info p 0 s1

/-- The member `registerExport<I>(module, I* p)`. -/
def registerExport {W : Type} (env : Env W) (sig module : Str) (p : Nat)
    (s : ModulesIoC W) : Res W Unit :=
  if p = 0 then (cAssert env (p != 0) s).andThen fun _ s1 => .ret () s1
  else registerExportShared env sig module p s

/-- The member `registerExportNoDelete<I>(module, I* p)`; the handle it builds has an
empty deleter and the same address. -/
def registerExportNoDelete {W : Type} (env : Env W) (sig module : Str) (p : Nat)
    (s : ModulesIoC W) : Res W Unit :=
  if p = 0 then (cAssert env (p != 0) s).andThen fun _ s1 => .ret () s1
  else registerExportShared env sig module p s

/-- The member `registerInternalCreator<I>(module, c)`. -/
def registerInternalCreator {W : Type} (env : Env W) (sig module : Str) (c : Nat)
    (s : ModulesIoC W) : Res W Unit :=
  if c = 0 then (cAssert env (c != 0) s).andThen fun _ s1 => .ret () s1
  else (interfaceInfoOf sig s).andThen fun info s1 => registerService env module info 0 c s1

/-- The member `registerInternal<I>(module, std::shared_ptr<I> p)`. -/
def registerInternalShared {W : Type} (env : Env W) (sig module : Str) (p : Nat)
    (s : ModulesIoC W) : Res W Unit :=
  if p = 0 then (cAssert env (p != 0) s).andThen fun _ s1 => .ret () s1
  else (interfaceInfoOf sig s).andThen fun info s1 => registerService env module info p 0 s1

/-- The member `registerInternal<I>(module, I* p)`. -/
def registerInternal {W : Type} (env : Env W) (sig module : Str) (p : Nat)
    (s : ModulesIoC W) : Res W Unit :=
  if p = 0 then (cAssert env (p != 0) s).andThen fun _ s1 => .ret () s1
  else registerInternalShared env sig module p s

/-- The member `registerInternalNoDelete<I>(module, I* p)`. -/
def registerInternalNoDelete {W : Type} (env : Env W) (sig module : Str) (p : Nat)
    (s : ModulesIoC W) : Res W Unit :=
  if p = 0 then (cAssert env (p != 0) s).andThen fun _ s1 => .ret () s1
  else registerInternalShared env sig module p s

/-- The member `unregister<I>(module)`; the module is not used. -/
def unregister {W : Type} (sig : Str) (_module : Str) (s : ModulesIoC W) : Res W Unit :=
  (interfaceInfoOf sig s).andThen fun info s1 => unregisterService info s1

/-- The member `resolve<I>(module, callInfo)`. -/
def resolve {W : Type} (env : Env W) (sig module callInfo : Str) (s : ModulesIoC W) :
    Res W Nat :=
  (interfaceInfoOf sig s).andThen fun info s1 => doResolvePtrByInfo env module info callInfo s1

/-- The member `unregisterIfRegistered<I>(module, p)`. -/
def unregisterIfRegistered {W : Type} (env : Env W) (sig module : Str) (p : Nat)
    (s : ModulesIoC W) : Res W Unit :=
  (resolve env sig module [] s).andThen fun r s1 =>
    if r = p then unregister sig module s1 else .ret () s1

/-- The line `resolveRequiredImport` writes when nothing is found. -/
def notFoundLine (info : InterfaceInfo) : Str :=
  "not found implementation for interface: ".toList ++ info.id

/-- The member `resolveRequiredImport<I>(module)`. -/
def resolveRequiredImport {W : Type} (env : Env W) (sig module : Str) (s : ModulesIoC W) :
    Res W Nat :=
  (interfaceInfoOf sig s).andThen fun info s1 =>
    (doResolvePtrByInfo env module info [] s1).andThen fun p s2 =>
      if p = 0 then
        (cAssert env false (writeCerr (notFoundLine info) s2)).andThen fun _ s3 => .ret p s3
      else .ret p s2

/-- The member `reset()`. -/
def reset {W : Type} (s : ModulesIoC W) : Res W Unit :=
  .ret () { s with m_map := [] }

/-- Whether a call returned to its caller. -/
def Res.returned {W α : Type} : Res W α → Bool
  | .ret _ _ => true
  | .aborted _ => false
  | .threw _ => false

/-- The events a call added: the trace at its end without the trace `s` started with. -/
def emitted {W α : Type} (s : ModulesIoC W) (r : Res W α) : List Event :=
  r.state.trace.drop s.trace.length

/-- Successive calls `resolve<I>(module, callInfo)`, one for each pair of `reqs`, in
order; the result lists the handles returned. -/
def resolveAll {W : Type} (env : Env W) (sig : Str) :
    List (Str × Str) → ModulesIoC W → Res W (List Nat)
  | [], s => .ret [] s
  | (module, callInfo) :: reqs, s =>
    (resolve env sig module callInfo s).andThen fun h s1 =>
      (resolveAll env sig reqs s1).andThen fun hs s2 => .ret (h :: hs) s2

/-- The handles of `k` successive calls `c->create()` made while the registry holds
`m`, starting in the world `w`, and the world after them. -/
def createAll {W : Type} (env : Env W) (c : Nat) (m : ServiceMap) : Nat → W → List Nat × W
  | 0, w => ([], w)
  | k + 1, w =>
    let r := env.create c m w
    let rs := createAll env c m k r.world
    (r.handle :: rs.1, rs.2)

/-- The map at the end of the lookup of `doResolvePtrByInfo`: `m_map` itself, except
when the entry of the identifier has no instance and a creator, where it is `m_map`
after the calls the creator made. -/
def mapAfterLookup {W : Type} (env : Env W) (info : InterfaceInfo) (s : ModulesIoC W) :
    ServiceMap :=
  match mapFind info.id s.m_map with
  | none => s.m_map
  | some inj =>
    if inj.p ≠ 0 then s.m_map
    else if inj.c ≠ 0 then applyReentries (env.create inj.c s.m_map s.world).calls s.m_map
    else s.m_map

/-- A creator table for examples: the world counts the objects created so far, and
the creator at address `c` returns the handle `c + 100 * (n + 1)` for its `n`-th
object; it makes no call on the registry. -/
def countingEnv (ndebug : Bool) : Env Nat :=
  { ndebug := ndebug,
    create := fun c _ w => { handle := c + 100 * (w + 1), world := w + 1, calls := [] } }

/-- A creator table for examples: like `countingEnv`, but `create()` also calls
`unregister<I>` on the singleton, for `I` the capability type with the text `sig`. -/
def unregisteringEnv (ndebug : Bool) (sig : Str) : Env Nat :=
  { ndebug := ndebug,
    create := fun c _ w =>
      { handle := c + 100 * (w + 1), world := w + 1, calls := [Reentry.unregister sig] } }

/-- The text of `__PRETTY_FUNCTION__` for `mu::update::IUpdateConfiguration`, as in the
note of `moduleinfo.h`. -/
def sigUpdateConfiguration : Str :=
  ("constexpr mu::modularity::InterfaceInfo mu::modularity::getInterfaceInfo() " ++
    "[with I = mu::update::IUpdateConfiguration]").toList

/-- The info of `mu::update::IUpdateConfiguration`. -/
def infoUpdateConfiguration : InterfaceInfo :=
  { id := "IUpdateConfiguration".toList, module := "update".toList, internal := false }

/-- The registry right after construction, in a world where nothing was created. -/
def emptyIoC : ModulesIoC Nat := { m_map := [], trace := [], world := 0 }

/-- The scan of `std::string_view::find_first_of`: `s` is the text from position `i`
on; the result is the first position at or after `i` whose character is one of `set`,
or `npos`. -/
def findFirstOfFrom (set : Str) : Str → Nat → Nat
  | [], _ => npos
  | c :: cs, i => if c ∈ set then i else findFirstOfFrom set cs (i + 1)

/-- The call `sig.find_first_of(set, pos)`. -/
def find_first_of (sig set : Str) (pos : Nat) : Nat :=
  if set.length = 0 then npos else findFirstOfFrom set (sig.drop pos) pos

/-- Whether the character of `sig` at position `k` is one of `set`. -/
def charIn (set sig : Str) (k : Nat) : Bool :=
  match sig[k]? with
  | some c => decide (c ∈ set)
  | none => false

/-- The backward scan of `std::string_view::find_last_of`: tries the positions
`k, k - 1, ..., 0` and returns the first one whose character is one of `set`, or
`npos`. -/
def findLastOfDown (set sig : Str) : Nat → Nat
  | 0 => if charIn set sig 0 then 0 else npos
  | k + 1 => if charIn set sig (k + 1) then k + 1 else findLastOfDown set sig k

/-- The call `sig.find_last_of(set, pos)`: the last position at most `pos` whose
character is one of `set`. -/
def find_last_of (sig set : Str) (pos : Nat) : Nat :=
  if sig.length ≠ 0 ∧ set.length ≠ 0 then findLastOfDown set sig (min (sig.length - 1) pos)
  else npos

/-- The function `moduleNameBySig` of `moduleinfo.h`. -/
def moduleNameBySig (sig : Str) : Option Str :=
  let ArgBegin : Str := "(".toList
  let Space : Str := " ".toList
  let Colon : Str := "::".toList
  let endMethod := find_first_of sig ArgBegin 0
  if endMethod = npos then some sig
  else
    let beginMethod := find_last_of sig Space endMethod
    if beginMethod = npos then some sig
    else
      let beginModule := sizeAdd (find_first_of sig Colon beginMethod) 2
      let endModule := find_first_of sig Colon beginModule
      substr sig beginModule (sizeSub endModule beginModule)

/-- Whether `pat` occurs in `s`: whether `s` is `u ++ pat ++ v` for some `u` and `v`. -/
def occurs (pat : Str) : Str → Bool
  | [] => pat.isPrefixOf []
  | c :: cs => pat.isPrefixOf (c :: cs) || occurs pat cs

/-- A call of a public member of `ModulesIoC`, with its arguments. -/
inductive Op where
  | registerExportCreator (sig module : Str) (c : Nat)
  | registerExport (sig module : Str) (p : Nat)
  | registerExportNoDelete (sig module : Str) (p : Nat)
  | registerExportShared (sig module : Str) (p : Nat)
  | registerInternalCreator (sig module : Str) (c : Nat)
  | registerInternal (sig module : Str) (p : Nat)
  | registerInternalNoDelete (sig module : Str) (p : Nat)
  | registerInternalShared (sig module : Str) (p : Nat)
  | unregister (sig module : Str)
  | unregisterIfRegistered (sig module : Str) (p : Nat)
  | resolve (sig module callInfo : Str)
  | resolveRequiredImport (sig module : Str)
  | reset

/-- A call that drops the value it returns. -/
def Res.discard {W α : Type} (r : Res W α) : Res W Unit :=
  r.andThen fun _ s => .ret () s

/-- The execution of one call. -/
def runOp {W : Type} (env : Env W) : Op → ModulesIoC W → Res W Unit
  | .registerExportCreator sig module c, s => registerExportCreator env sig module c s
  | .registerExport sig module p, s => registerExport env sig module p s
  | .registerExportNoDelete sig module p, s => registerExportNoDelete env sig module p s
  | .registerExportShared sig module p, s => registerExportShared env sig module p s
  | .registerInternalCreator sig module c, s => registerInternalCreator env sig module c s
  | .registerInternal sig module p, s => registerInternal env sig module p s
  | .registerInternalNoDelete sig module p, s => registerInternalNoDelete env sig module p s
  | .registerInternalShared sig module p, s => registerInternalShared env sig module p s
  | .unregister sig module, s => unregister sig module s
  | .unregisterIfRegistered sig module p, s => unregisterIfRegistered env sig module p s
  | .resolve sig module callInfo, s => (resolve env sig module callInfo s).discard
  | .resolveRequiredImport sig module, s => (resolveRequiredImport env sig module s).discard
  | .reset, s => reset s

/-- The execution of a sequence of calls, in order; it stops where the process is
terminated. -/
def runOps {W : Type} (env : Env W) : List Op → ModulesIoC W → Res W Unit
  | [], s => .ret () s
  | op :: ops, s => (runOp env op s).andThen fun _ s1 => runOps env ops s1

/-- An entry with exactly one of its instance `p` and its creator `c` set. -/
def Service.exactlyOne (e : Service) : Bool :=
  (e.p != 0 && e.c == 0) || (e.p == 0 && e.c != 0)

/-- Whether every entry of the map has exactly one of its instance and its creator
set. -/
def allExactlyOne (m : ServiceMap) : Bool :=
  m.all fun kv => kv.2.exactlyOne

/-- The text of `__PRETTY_FUNCTION__` in `getInterfaceInfo<I>()` up to the bracketed
clause, as in the note of `moduleinfo.h`. -/
def sigHead : Str :=
  "constexpr mu::modularity::InterfaceInfo mu::modularity::getInterfaceInfo() ".toList

/-- The text of `__PRETTY_FUNCTION__` for a type `mu::audio::IConfiguration`. -/
def sigAudioConfiguration : Str :=
  sigHead ++ "[with I = mu::audio::IConfiguration]".toList

/-- The text of `__PRETTY_FUNCTION__` for a type `mu::midi::IConfiguration`. -/
def sigMidiConfiguration : Str :=
  sigHead ++ "[with I = mu::midi::IConfiguration]".toList

/-- The text of `__PRETTY_FUNCTION__` for a class template instance
`mu::IHash<int []>`. -/
def sigHashOfArray : Str :=
  sigHead ++ "[with I = mu::IHash<int []>]".toList

/-- The method signature of the note in `moduleNameBySig`. -/
def sigMethod : Str :=
  "SomeType mu::modulename::maybe::ClassName::methodName()".toList

/-! The map. -/

theorem mapFind_mapAssign_self (k : Str) (v : Service) (m : ServiceMap) :
    mapFind k (mapAssign k v m) = some v := by
  induction m with
  | nil => simp [mapAssign, mapFind]
  | cons kv m ih =>
    obtain ⟨k', v'⟩ := kv
    by_cases h : k' = k
    · simp [mapAssign, mapFind, h]
    · simp [mapAssign, mapFind, h, ih]

theorem mapFind_mapAssign_ne (k k2 : Str) (v : Service) (m : ServiceMap) (h : k2 ≠ k) :
    mapFind k2 (mapAssign k v m) = mapFind k2 m := by
  induction m with
  | nil => simp [mapAssign, mapFind, h.symm]
  | cons kv m ih =>
    obtain ⟨k', v'⟩ := kv
    by_cases h1 : k' = k
    · subst h1
      simp [mapAssign, mapFind, h.symm]
    · by_cases h2 : k' = k2
      · subst h2
        simp [mapAssign, mapFind, h]
      · simp [mapAssign, mapFind, h1, h2, ih]

theorem mapFind_mapErase_self (k : Str) (m : ServiceMap) :
    mapFind k (mapErase k m) = none := by
  induction m with
  | nil => simp [mapErase, mapFind]
  | cons kv m ih =>
    obtain ⟨k', v'⟩ := kv
    by_cases h : k' = k
    · simp [mapErase, h, ih]
    · simp [mapErase, mapFind, h, ih]

theorem mapFind_mapErase_ne (k k2 : Str) (m : ServiceMap) (h : k2 ≠ k) :
    mapFind k2 (mapErase k m) = mapFind k2 m := by
  induction m with
  | nil => simp [mapErase, mapFind]
  | cons kv m ih =>
    obtain ⟨k', v'⟩ := kv
    by_cases h1 : k' = k
    · subst h1
      simp [mapErase, mapFind, h.symm, ih]
    · by_cases h2 : k' = k2
      · subst h2
        simp [mapErase, mapFind, h]
      · simp [mapErase, mapFind, h1, h2, ih]

theorem mapErase_of_absent (k : Str) (m : ServiceMap) (h : mapFind k m = none) :
    mapErase k m = m := by
  induction m with
  | nil => simp [mapErase]
  | cons kv m ih =>
    obtain ⟨k', v'⟩ := kv
    by_cases h1 : k' = k
    · simp [mapFind, h1] at h
    · simp [mapFind, h1] at h
      simp [mapErase, h1, ih h]

/-! The extraction of the interface info never throws. -/

theorem isPrefixOf_length_le (pat s : Str) (h : pat.isPrefixOf s = true) :
    pat.length ≤ s.length := by
  induction pat generalizing s with
  | nil => simp
  | cons a pat ih =>
    cases s with
    | nil => simp [List.isPrefixOf] at h
    | cons b s =>
      simp only [List.isPrefixOf, Bool.and_eq_true] at h
      have := ih s h.2
      simp only [List.length_cons]
      omega

theorem findFrom_bound (pat s : Str) (i : Nat) :
    findFrom pat s i = npos ∨ findFrom pat s i + pat.length ≤ i + s.length := by
  induction s generalizing i with
  | nil =>
    unfold findFrom
    split
    · rename_i h
      have := isPrefixOf_length_le pat [] h
      right
      simpa using this
    · left; rfl
  | cons c cs ih =>
    unfold findFrom
    split
    · rename_i h
      right
      have := isPrefixOf_length_le pat (c :: cs) h
      omega
    · rcases ih (i + 1) with h | h
      · left; exact h
      · right
        simp only [List.length_cons]
        omega

theorem find_bound (sig pat : Str) (pos : Nat) :
    find sig pat pos = npos ∨ find sig pat pos + pat.length ≤ sig.length := by
  unfold find
  split
  · left; rfl
  · rename_i h
    rcases findFrom_bound pat (sig.drop pos) pos with h1 | h1
    · left; exact h1
    · right
      simp only [List.length_drop] at h1
      omega

theorem rfindDown_bound (pat sig : Str) (k : Nat) :
    rfindDown pat sig k = npos ∨ rfindDown pat sig k ≤ k := by
  induction k with
  | zero =>
    unfold rfindDown
    split
    · right; exact Nat.le_refl 0
    · left; rfl
  | succ k ih =>
    unfold rfindDown
    split
    · right; exact Nat.le_refl _
    · rcases ih with h | h
      · left; exact h
      · right; omega

theorem rfind_bound (sig pat : Str) (pos : Nat) :
    rfind sig pat pos = npos ∨ rfind sig pat pos + pat.length ≤ sig.length := by
  unfold rfind
  split
  · rename_i h
    rcases rfindDown_bound pat sig (min (sig.length - pat.length) pos) with h1 | h1
    · left; exact h1
    · right
      have : min (sig.length - pat.length) pos ≤ sig.length - pat.length := Nat.min_le_left _ _
      omega
  · left; rfl

theorem substr_isSome (sig : Str) (pos n : Nat) (h : pos ≤ sig.length) :
    ∃ r, substr sig pos n = some r := by
  unfold substr
  rw [if_neg (by omega)]
  exact ⟨_, rfl⟩

theorem sizeAdd_le (a b : Nat) : sizeAdd a b ≤ a + b := Nat.mod_le _ _

theorem interfaceName_total (sig : Str) : ∃ r, interfaceName sig = some r := by
  unfold interfaceName
  simp only
  split
  · exact ⟨_, rfl⟩
  · split
    · exact ⟨_, rfl⟩
    · rename_i h
      apply substr_isSome
      rcases rfind_bound sig "::".toList (find sig "]".toList 0) with h1 | h1
      · exact absurd h1 h
      · have h2 := sizeAdd_le (rfind sig "::".toList (find sig "]".toList 0)) 2
        have h3 : ("::".toList).length = 2 := rfl
        omega

theorem moduleNameByInterface_total (sig : Str) :
    ∃ r, moduleNameByInterface sig = some r := by
  unfold moduleNameByInterface
  simp only
  split
  · exact ⟨_, rfl⟩
  · split
    · exact ⟨_, rfl⟩
    · rename_i h
      have hb : sizeAdd (find sig "::".toList (find sig "[with ".toList 0)) 2 ≤ sig.length := by
        rcases find_bound sig "::".toList (find sig "[with ".toList 0) with h1 | h1
        · exact absurd h1 h
        · have h2 := sizeAdd_le (find sig "::".toList (find sig "[with ".toList 0)) 2
          have h3 : ("::".toList).length = 2 := rfl
          omega
      split
      · exact substr_isSome _ _ _ hb
      · exact substr_isSome _ _ _ hb

/-- The function template `getInterfaceInfo<I>()` returns for every text, and the info
it returns is never marked internal. -/
theorem getInterfaceInfo_total (sig : Str) :
    ∃ info, getInterfaceInfo sig = some info ∧ info.internal = false := by
  obtain ⟨i, hi⟩ := interfaceName_total sig
  obtain ⟨m, hm⟩ := moduleNameByInterface_total sig
  exact ⟨⟨i, m, false⟩, by simp [getInterfaceInfo, hi, hm], rfl⟩

theorem getInterfaceInfo_internal (sig : Str) (info : InterfaceInfo)
    (h : getInterfaceInfo sig = some info) : info.internal = false := by
  obtain ⟨i, h1, h2⟩ := getInterfaceInfo_total sig
  rw [h1] at h
  cases h
  exact h2

/-! The member functions. -/

theorem interfaceInfoOf_eq {W : Type} (sig : Str) (info : InterfaceInfo) (s : ModulesIoC W)
    (hI : getInterfaceInfo sig = some info) : interfaceInfoOf sig s = Res.ret info s := by
  simp [interfaceInfoOf, hI]

set_option maxRecDepth 100000 in
theorem getInterfaceInfo_sigUpdateConfiguration :
    getInterfaceInfo sigUpdateConfiguration = some infoUpdateConfiguration := by
  decide

theorem registerService_absent {W : Type} (env : Env W) (module : Str) (info : InterfaceInfo)
    (p c : Nat) (s : ModulesIoC W) (h : mapFind info.id s.m_map = none) :
    registerService env module info p c s
      = Res.ret () { s with m_map := mapAssign info.id ⟨c, module, p⟩ s.m_map } := by
  simp [registerService, h]

theorem registerService_present {W : Type} (env : Env W) (module : Str) (info : InterfaceInfo)
    (p c : Nat) (s : ModulesIoC W) (e : Service) (h : mapFind info.id s.m_map = some e) :
    registerService env module info p c s
      = (if env.ndebug then Res.ret () (writeCerr (doubleRegisterLine module info e.sourceModule) s)
         else Res.aborted (writeCerr (doubleRegisterLine module info e.sourceModule) s)) := by
  cases hn : env.ndebug <;> simp [registerService, h, cAssert, Res.andThen, hn]

theorem registerExportShared_nonnull {W : Type} (env : Env W) (sig module : Str)
    (info : InterfaceInfo) (p : Nat) (s : ModulesIoC W)
    (hI : getInterfaceInfo sig = some info) (hp : p ≠ 0) :
    registerExportShared env sig module p s = registerService env module info p 0 s := by
  simp [registerExportShared, hp, interfaceInfoOf_eq sig info s hI, Res.andThen]

theorem registerExport_nonnull {W : Type} (env : Env W) (sig module : Str)
    (info : InterfaceInfo) (p : Nat) (s : ModulesIoC W)
    (hI : getInterfaceInfo sig = some info) (hp : p ≠ 0) :
    registerExport env sig module p s = registerService env module info p 0 s := by
  simp [registerExport, hp, registerExportShared_nonnull env sig module info p s hI hp]

theorem registerExportNoDelete_nonnull {W : Type} (env : Env W) (sig module : Str)
    (info : InterfaceInfo) (p : Nat) (s : ModulesIoC W)
    (hI : getInterfaceInfo sig = some info) (hp : p ≠ 0) :
    registerExportNoDelete env sig module p s = registerService env module info p 0 s := by
  simp [registerExportNoDelete, hp, registerExportShared_nonnull env sig module info p s hI hp]

theorem registerExportCreator_nonnull {W : Type} (env : Env W) (sig module : Str)
    (info : InterfaceInfo) (c : Nat) (s : ModulesIoC W)
    (hI : getInterfaceInfo sig = some info) (hc : c ≠ 0) :
    registerExportCreator env sig module c s = registerService env module info 0 c s := by
  simp [registerExportCreator, hc, interfaceInfoOf_eq sig info s hI, Res.andThen]

theorem registerInternalShared_nonnull {W : Type} (env : Env W) (sig module : Str)
    (info : InterfaceInfo) (p : Nat) (s : ModulesIoC W)
    (hI : getInterfaceInfo sig = some info) (hp : p ≠ 0) :
    registerInternalShared env sig module p s = registerService env module info p 0 s := by
  simp [registerInternalShared, hp, interfaceInfoOf_eq sig info s hI, Res.andThen]

theorem registerInternal_nonnull {W : Type} (env : Env W) (sig module : Str)
    (info : InterfaceInfo) (p : Nat) (s : ModulesIoC W)
    (hI : getInterfaceInfo sig = some info) (hp : p ≠ 0) :
    registerInternal env sig module p s = registerService env module info p 0 s := by
  simp [registerInternal, hp, registerInternalShared_nonnull env sig module info p s hI hp]

theorem registerInternalNoDelete_nonnull {W : Type} (env : Env W) (sig module : Str)
    (info : InterfaceInfo) (p : Nat) (s : ModulesIoC W)
    (hI : getInterfaceInfo sig = some info) (hp : p ≠ 0) :
    registerInternalNoDelete env sig module p s = registerService env module info p 0 s := by
  simp [registerInternalNoDelete, hp,
    registerInternalShared_nonnull env sig module info p s hI hp]

theorem registerInternalCreator_nonnull {W : Type} (env : Env W) (sig module : Str)
    (info : InterfaceInfo) (c : Nat) (s : ModulesIoC W)
    (hI : getInterfaceInfo sig = some info) (hc : c ≠ 0) :
    registerInternalCreator env sig module c s = registerService env module info 0 c s := by
  simp [registerInternalCreator, hc, interfaceInfoOf_eq sig info s hI, Res.andThen]

/-- The info of `getInterfaceInfo<I>()` is not internal, so `resolve<I>` is the lookup. -/
theorem resolve_eq_lookupService {W : Type} (env : Env W) (sig module callInfo : Str)
    (info : InterfaceInfo) (s : ModulesIoC W) (hI : getInterfaceInfo sig = some info) :
    resolve env sig module callInfo s = lookupService env info s := by
  have hint := getInterfaceInfo_internal sig info hI
  simp [resolve, interfaceInfoOf_eq sig info s hI, Res.andThen, doResolvePtrByInfo,
    checkInternal, hint]

/-- The handle the lookup returns depends on `m_map` and on the world only. -/
theorem lookupService_value {W : Type} (env : Env W) (info : InterfaceInfo)
    (s : ModulesIoC W) :
    (lookupService env info s).value
      = some (match mapFind info.id s.m_map with
          | none => 0
          | some inj =>
            if inj.p ≠ 0 then inj.p
            else if inj.c ≠ 0 then (env.create inj.c s.m_map s.world).handle else 0) := by
  unfold lookupService
  cases h : mapFind info.id s.m_map with
  | none => simp [Res.value]
  | some inj =>
    by_cases hp : inj.p = 0
    · by_cases hc : inj.c = 0
      · simp [hp, hc, Res.value]
      · simp [hp, hc, Res.value]
    · simp [hp, Res.value]

theorem lookupService_instance {W : Type} (env : Env W) (info : InterfaceInfo)
    (s : ModulesIoC W) (e : Service) (h : mapFind info.id s.m_map = some e) (hp : e.p ≠ 0) :
    lookupService env info s = Res.ret e.p s := by
  simp [lookupService, h, hp]

theorem lookupService_absent {W : Type} (env : Env W) (info : InterfaceInfo)
    (s : ModulesIoC W) (h : mapFind info.id s.m_map = none) :
    lookupService env info s = Res.ret 0 s := by
  simp [lookupService, h]

/-! The claims. -/

/-- C1. When the identifier of `I` already has the entry `e`, every further registration
of `I` (through `registerService` with any instance and creator, or through one of the
eight `registerExport*` / `registerInternal*` members with a non-null instance `p` or a
non-null creator `c`, from any module) writes the double-register line naming the new
module and the module of `e`, then hits `assert(false)`: with `NDEBUG` it returns,
without it the process is terminated. In both builds `m_map` and the world are as
before, the entry of the identifier is still `e`, and `resolve<I>` returns from the
resulting state the handle it returns from the state before. -/
theorem double_registration_rejected {W : Type} (env : Env W) (sig module : Str)
    (info : InterfaceInfo) (e : Service) (p c : Nat) (s : ModulesIoC W)
    (hI : getInterfaceInfo sig = some info) (he : mapFind info.id s.m_map = some e)
    (hp : p ≠ 0) (hc : c ≠ 0) :
    (∀ p2 c2, registerService env module info p2 c2 s
        = (if env.ndebug
            then Res.ret () (writeCerr (doubleRegisterLine module info e.sourceModule) s)
            else Res.aborted (writeCerr (doubleRegisterLine module info e.sourceModule) s)))
    ∧ (∀ r ∈ [registerExport env sig module p s, registerExportShared env sig module p s,
          registerExportNoDelete env sig module p s, registerExportCreator env sig module c s,
          registerInternal env sig module p s, registerInternalShared env sig module p s,
          registerInternalNoDelete env sig module p s,
          registerInternalCreator env sig module c s],
        r = (if env.ndebug
            then Res.ret () (writeCerr (doubleRegisterLine module info e.sourceModule) s)
            else Res.aborted (writeCerr (doubleRegisterLine module info e.sourceModule) s)))
    ∧ (writeCerr (doubleRegisterLine module info e.sourceModule) s).m_map = s.m_map
    ∧ (writeCerr (doubleRegisterLine module info e.sourceModule) s).world = s.world
    ∧ mapFind info.id (writeCerr (doubleRegisterLine module info e.sourceModule) s).m_map
        = some e
    ∧ (∀ usage callInfo,
        (resolve env sig usage callInfo
            (writeCerr (doubleRegisterLine module info e.sourceModule) s)).value
          = (resolve env sig usage callInfo s).value) := by
  refine ⟨fun p2 c2 => registerService_present env module info p2 c2 s e he, ?_, rfl, rfl,
    he, ?_⟩
  · intro r hr
    simp only [List.mem_cons, List.mem_singleton, List.not_mem_nil, or_false] at hr
    rcases hr with h | h | h | h | h | h | h | h <;> subst h
    · rw [registerExport_nonnull env sig module info p s hI hp]
      exact registerService_present env module info p 0 s e he
    · rw [registerExportShared_nonnull env sig module info p s hI hp]
      exact registerService_present env module info p 0 s e he
    · rw [registerExportNoDelete_nonnull env sig module info p s hI hp]
      exact registerService_present env module info p 0 s e he
    · rw [registerExportCreator_nonnull env sig module info c s hI hc]
      exact registerService_present env module info 0 c s e he
    · rw [registerInternal_nonnull env sig module info p s hI hp]
      exact registerService_present env module info p 0 s e he
    · rw [registerInternalShared_nonnull env sig module info p s hI hp]
      exact registerService_present env module info p 0 s e he
    · rw [registerInternalNoDelete_nonnull env sig module info p s hI hp]
      exact registerService_present env module info p 0 s e he
    · rw [registerInternalCreator_nonnull env sig module info c s hI hc]
      exact registerService_present env module info 0 c s e he
  · intro usage callInfo
    rw [resolve_eq_lookupService env sig usage callInfo info _ hI,
      resolve_eq_lookupService env sig usage callInfo info _ hI,
      lookupService_value, lookupService_value]
    rfl

/-- C1, at an input: `IUpdateConfiguration` is registered by module `update` with the
instance 7; module `other` then registers the instance 9 for it, in a build with
`NDEBUG`. The call returns, the line is written, and the entry still holds 7. -/
theorem double_registration_rejected_witness :
    getInterfaceInfo sigUpdateConfiguration = some infoUpdateConfiguration
    ∧ mapFind infoUpdateConfiguration.id
        ({ emptyIoC with
            m_map := [("IUpdateConfiguration".toList, ⟨0, "update".toList, 7⟩)] }).m_map
        = some ⟨0, "update".toList, 7⟩
    ∧ (9 : Nat) ≠ 0 ∧ (5 : Nat) ≠ 0
    ∧ registerExport (countingEnv true) sigUpdateConfiguration "other".toList 9
        { emptyIoC with m_map := [("IUpdateConfiguration".toList, ⟨0, "update".toList, 7⟩)] }
      = Res.ret ()
        { m_map := [("IUpdateConfiguration".toList, ⟨0, "update".toList, 7⟩)],
          trace := [Event.cerr
            "other: double register:IUpdateConfiguration, first register inupdate".toList],
          world := 0 } :=
  ⟨getInterfaceInfo_sigUpdateConfiguration, by decide, by decide, by decide,
    ((double_registration_rejected (countingEnv true) sigUpdateConfiguration "other".toList
      infoUpdateConfiguration ⟨0, "update".toList, 7⟩ 9 5
      { emptyIoC with m_map := [("IUpdateConfiguration".toList, ⟨0, "update".toList, 7⟩)] }
      getInterfaceInfo_sigUpdateConfiguration (by decide) (by decide) (by decide)).2.1
      _ (List.mem_cons_self _ _))⟩

/-- C2. When the identifier of `I` has no entry and `p` is not null,
`registerExport<I>(module, p)` (with a raw pointer or with a shared handle) returns
after storing the entry, and `resolve<I>(module, callInfo)` called right after it
returns the handle `p`, leaving the state as the registration left it. -/
theorem register_then_resolve_roundtrip {W : Type} (env : Env W)
    (sig module callInfo : Str) (info : InterfaceInfo) (p : Nat) (s : ModulesIoC W)
    (hI : getInterfaceInfo sig = some info) (habs : mapFind info.id s.m_map = none)
    (hp : p ≠ 0) :
    ∀ reg ∈ [registerExport env sig module p s, registerExportShared env sig module p s],
      reg = Res.ret () { s with m_map := mapAssign info.id ⟨0, module, p⟩ s.m_map }
      ∧ reg.andThen (fun _ s1 => resolve env sig module callInfo s1)
          = Res.ret p { s with m_map := mapAssign info.id ⟨0, module, p⟩ s.m_map } := by
  have hreg := registerService_absent env module info p 0 s habs
  have hres : resolve env sig module callInfo
      { s with m_map := mapAssign info.id ⟨0, module, p⟩ s.m_map }
      = Res.ret p { s with m_map := mapAssign info.id ⟨0, module, p⟩ s.m_map } := by
    rw [resolve_eq_lookupService env sig module callInfo info _ hI]
    exact lookupService_instance env info _ ⟨0, module, p⟩
      (mapFind_mapAssign_self info.id _ s.m_map) hp
  intro reg hreg2
  simp only [List.mem_cons, List.mem_singleton, List.not_mem_nil, or_false] at hreg2
  rcases hreg2 with h | h <;> subst h
  · rw [registerExport_nonnull env sig module info p s hI hp, hreg]
    exact ⟨rfl, hres⟩
  · rw [registerExportShared_nonnull env sig module info p s hI hp, hreg]
    exact ⟨rfl, hres⟩

/-- C2, at an input: the instance 7 of `IUpdateConfiguration` is registered in the empty
registry and resolved. -/
theorem register_then_resolve_roundtrip_witness :
    getInterfaceInfo sigUpdateConfiguration = some infoUpdateConfiguration
    ∧ mapFind infoUpdateConfiguration.id emptyIoC.m_map = none
    ∧ (7 : Nat) ≠ 0
    ∧ (registerExport (countingEnv false) sigUpdateConfiguration "update".toList 7
          emptyIoC).andThen
        (fun _ s1 => resolve (countingEnv false) sigUpdateConfiguration "update".toList [] s1)
      = Res.ret 7
        { m_map := [("IUpdateConfiguration".toList, ⟨0, "update".toList, 7⟩)],
          trace := [], world := 0 } :=
  ⟨getInterfaceInfo_sigUpdateConfiguration, by decide, by decide,
    ((register_then_resolve_roundtrip (countingEnv false) sigUpdateConfiguration
      "update".toList [] infoUpdateConfiguration 7 emptyIoC
      getInterfaceInfo_sigUpdateConfiguration (by decide) (by decide))
      _ (List.mem_cons_self _ _)).2⟩

theorem applyReentry_unregister (sig : Str) (info : InterfaceInfo) (m : ServiceMap)
    (hI : getInterfaceInfo sig = some info) :
    applyReentry (Reentry.unregister sig) m = mapErase info.id m := by
  simp [applyReentry, hI]

/-- With the creator table `unregisteringEnv`, a `resolve<I>` on a registry that holds
only the creator 3 for `I` calls `create()` once and leaves the registry empty; the
next one finds no entry. -/
theorem resolve_unregisteringEnv (ndebug : Bool) (usage callInfo : Str) (tr : List Event)
    (w : Nat) :
    resolve (unregisteringEnv ndebug sigUpdateConfiguration) sigUpdateConfiguration usage
        callInfo
        { m_map := [("IUpdateConfiguration".toList, ⟨3, "update".toList, 0⟩)],
          trace := tr, world := w }
      = Res.ret (3 + 100 * (w + 1))
          { m_map := [], trace := tr ++ [Event.create 3], world := w + 1 }
    ∧ resolve (unregisteringEnv ndebug sigUpdateConfiguration) sigUpdateConfiguration usage
        callInfo { m_map := [], trace := tr, world := w }
      = Res.ret 0 { m_map := [], trace := tr, world := w } := by
  rw [resolve_eq_lookupService _ _ _ _ _ _ getInterfaceInfo_sigUpdateConfiguration,
    resolve_eq_lookupService _ _ _ _ _ _ getInterfaceInfo_sigUpdateConfiguration]
  constructor
  · have hm : mapFind infoUpdateConfiguration.id
        [("IUpdateConfiguration".toList, (⟨3, "update".toList, 0⟩ : Service))]
        = some ⟨3, "update".toList, 0⟩ := by decide
    simp only [lookupService, hm, unregisteringEnv, applyReentries,
      applyReentry_unregister _ _ _ getInterfaceInfo_sigUpdateConfiguration]
    rfl
  · rfl

/-- C3, as stated, fails for a creator whose `create()` calls `unregister<I>` on the
singleton: the creator 3 is registered for `IUpdateConfiguration` in the empty registry
(no entry before, creator not null); of two `resolve` calls after it, the first calls
`create()` and returns its handle 103, the second finds no entry, calls nothing and
returns the empty handle: one `create` call for two resolves. -/
theorem creator_unregistering_its_interface :
    getInterfaceInfo sigUpdateConfiguration = some infoUpdateConfiguration
    ∧ mapFind infoUpdateConfiguration.id emptyIoC.m_map = none
    ∧ (3 : Nat) ≠ 0
    ∧ registerExportCreator (unregisteringEnv false sigUpdateConfiguration)
        sigUpdateConfiguration "update".toList 3 emptyIoC
      = Res.ret ()
        { emptyIoC with m_map := [("IUpdateConfiguration".toList, ⟨3, "update".toList, 0⟩)] }
    ∧ resolveAll (unregisteringEnv false sigUpdateConfiguration) sigUpdateConfiguration
        [("update".toList, []), ("update".toList, [])]
        { emptyIoC with m_map := [("IUpdateConfiguration".toList, ⟨3, "update".toList, 0⟩)] }
      = Res.ret [103, 0] { m_map := [], trace := [Event.create 3], world := 1 } := by
  refine ⟨getInterfaceInfo_sigUpdateConfiguration, by decide, by decide, ?_, ?_⟩
  · rw [registerExportCreator_nonnull _ _ _ _ _ _ getInterfaceInfo_sigUpdateConfiguration
      (by decide), registerService_absent _ _ _ _ _ _ (by decide)]
    rfl
  · have h1 := (resolve_unregisteringEnv false "update".toList [] [] 0).1
    have h2 := (resolve_unregisteringEnv false "update".toList [] [Event.create 3] 1).2
    simp only [List.nil_append] at h1
    simp only [resolveAll, emptyIoC, h1, Res.andThen, h2]

/-- C3, amended. When the identifier of `I` has no entry, `c` is not null and `create()`
of `c` leaves `m_map` as it found it, `registerExportCreator<I>(module, c)` returns
after storing an entry with the creator `c` and no instance. Any number of `resolve<I>`
calls after it (from any modules, with any hints) return, in order, the handles of that
many successive calls `c->create()`; they add exactly one `create` event each and
nothing else, the world is the one after those calls, and `m_map` is the one the
registration left: the entry still has no instance. -/
theorem creator_resolves_fresh {W : Type} (env : Env W) (sig module : Str)
    (info : InterfaceInfo) (c : Nat) (reqs : List (Str × Str)) (s : ModulesIoC W)
    (hI : getInterfaceInfo sig = some info) (habs : mapFind info.id s.m_map = none)
    (hc : c ≠ 0) (hkeep : ∀ m w, applyReentries (env.create c m w).calls m = m) :
    registerExportCreator env sig module c s
        = Res.ret () { s with m_map := mapAssign info.id ⟨c, module, 0⟩ s.m_map }
    ∧ resolveAll env sig reqs { s with m_map := mapAssign info.id ⟨c, module, 0⟩ s.m_map }
        = Res.ret
            (createAll env c (mapAssign info.id ⟨c, module, 0⟩ s.m_map) reqs.length
              s.world).1
            { m_map := mapAssign info.id ⟨c, module, 0⟩ s.m_map,
              trace := s.trace ++ List.replicate reqs.length (Event.create c),
              world := (createAll env c (mapAssign info.id ⟨c, module, 0⟩ s.m_map)
                reqs.length s.world).2 }
    ∧ mapFind info.id (mapAssign info.id ⟨c, module, 0⟩ s.m_map) = some ⟨c, module, 0⟩ := by
  refine ⟨?_, ?_, mapFind_mapAssign_self _ _ _⟩
  · rw [registerExportCreator_nonnull env sig module info c s hI hc]
    exact registerService_absent env module info 0 c s habs
  · have key : ∀ (reqs : List (Str × Str)) (m : ServiceMap) (tr : List Event) (w : W),
        mapFind info.id m = some ⟨c, module, 0⟩ →
        resolveAll env sig reqs { m_map := m, trace := tr, world := w }
          = Res.ret (createAll env c m reqs.length w).1
              { m_map := m, trace := tr ++ List.replicate reqs.length (Event.create c),
                world := (createAll env c m reqs.length w).2 } := by
      intro reqs
      induction reqs with
      | nil => intro m tr w _; simp [resolveAll, createAll]
      | cons rq reqs ih =>
        intro m tr w hm
        obtain ⟨usage, callInfo⟩ := rq
        have h1 : resolve env sig usage callInfo { m_map := m, trace := tr, world := w }
            = Res.ret (env.create c m w).handle
                { m_map := m, trace := tr ++ [Event.create c],
                  world := (env.create c m w).world } := by
          rw [resolve_eq_lookupService env sig usage callInfo info _ hI]
          simp [lookupService, hm, hc, hkeep]
        simp only [resolveAll, h1, Res.andThen, ih m _ _ hm, createAll, List.length_cons,
          List.replicate_succ, List.append_assoc, List.singleton_append]
    exact key reqs _ s.trace s.world (mapFind_mapAssign_self _ _ _)

/-- C3 amended, at an input: the creator 3, which makes no call on the registry, is
registered for `IUpdateConfiguration` in the empty registry; two `resolve` calls return
two different handles, made by two `create` calls. -/
theorem creator_resolves_fresh_witness :
    getInterfaceInfo sigUpdateConfiguration = some infoUpdateConfiguration
    ∧ mapFind infoUpdateConfiguration.id emptyIoC.m_map = none
    ∧ (3 : Nat) ≠ 0
    ∧ (∀ m w, applyReentries ((countingEnv false).create 3 m w).calls m = m)
    ∧ resolveAll (countingEnv false) sigUpdateConfiguration
        [("update".toList, []), ("other".toList, [])]
        { emptyIoC with m_map := [("IUpdateConfiguration".toList, ⟨3, "update".toList, 0⟩)] }
      = Res.ret [103, 203]
        { m_map := [("IUpdateConfiguration".toList, ⟨3, "update".toList, 0⟩)],
          trace := [Event.create 3, Event.create 3], world := 2 } :=
  ⟨getInterfaceInfo_sigUpdateConfiguration, by decide, by decide, fun _ _ => rfl,
    (creator_resolves_fresh (countingEnv false) sigUpdateConfiguration "update".toList
      infoUpdateConfiguration 3 [("update".toList, []), ("other".toList, [])] emptyIoC
      getInterfaceInfo_sigUpdateConfiguration (by decide) (by decide) (fun _ _ => rfl)).2.1⟩

theorem emitted_append {W α : Type} (s : ModulesIoC W) (r : Res W α) (l : List Event)
    (h : r.state.trace = s.trace ++ l) : emitted s r = l := by
  simp [emitted, h]

/-- The lookup adds no line to `std::cerr`. -/
theorem lookupService_trace {W : Type} (env : Env W) (info : InterfaceInfo)
    (s : ModulesIoC W) :
    ∃ l, (lookupService env info s).state.trace = s.trace ++ l
      ∧ ∀ line, Event.cerr line ∉ l := by
  unfold lookupService
  cases h : mapFind info.id s.m_map with
  | none => exact ⟨[], by simp [Res.state], by simp⟩
  | some inj =>
    by_cases hp : inj.p = 0
    · by_cases hc : inj.c = 0
      · exact ⟨[], by simp [hp, hc, Res.state], by simp⟩
      · exact ⟨[Event.create inj.c], by simp [hp, hc, Res.state], by simp⟩
    · exact ⟨[], by simp [hp, Res.state], by simp⟩

/-- C4. For every state, info, requesting module and hint, the events
`doResolvePtrByInfo` adds contain the internal-usage line exactly when `info.internal`
holds and the requesting module differs from `info.module`; no other line is ever
written; and a requester whose module is `info.module` gets exactly the lookup. -/
theorem visibility_report_iff {W : Type} (env : Env W) (usageModule : Str)
    (info : InterfaceInfo) (callInfo : Str) (s : ModulesIoC W) :
    (Event.cerr (internalUsageLine usageModule info callInfo)
        ∈ emitted s (doResolvePtrByInfo env usageModule info callInfo s)
      ↔ (info.internal = true ∧ usageModule ≠ info.module))
    ∧ (∀ line, Event.cerr line ∈ emitted s (doResolvePtrByInfo env usageModule info callInfo s)
        → line = internalUsageLine usageModule info callInfo)
    ∧ (usageModule = info.module
        → doResolvePtrByInfo env usageModule info callInfo s = lookupService env info s) := by
  by_cases hcond : info.internal = true ∧ usageModule ≠ info.module
  · obtain ⟨hi, hm⟩ := hcond
    cases hn : env.ndebug
    · have hr : doResolvePtrByInfo env usageModule info callInfo s
          = Res.aborted (writeCerr (internalUsageLine usageModule info callInfo) s) := by
        simp [doResolvePtrByInfo, checkInternal, hi, hm, hn, Res.andThen]
      have he := emitted_append s (doResolvePtrByInfo env usageModule info callInfo s)
        [Event.cerr (internalUsageLine usageModule info callInfo)]
        (by rw [hr]; rfl)
      rw [he]
      refine ⟨by simp [hi, hm], ?_, fun h => absurd h hm⟩
      intro line hl
      simpa using hl
    · obtain ⟨l, hl, hno⟩ := lookupService_trace env info
        (writeCerr (internalUsageLine usageModule info callInfo) s)
      have hr : doResolvePtrByInfo env usageModule info callInfo s
          = lookupService env info
              (writeCerr (internalUsageLine usageModule info callInfo) s) := by
        simp [doResolvePtrByInfo, checkInternal, hi, hm, hn, Res.andThen]
      have he := emitted_append s (doResolvePtrByInfo env usageModule info callInfo s)
        (Event.cerr (internalUsageLine usageModule info callInfo) :: l)
        (by rw [hr, hl]; simp [writeCerr])
      rw [he]
      refine ⟨by simp [hi, hm], ?_, fun h => absurd h hm⟩
      intro line hmem
      rcases List.mem_cons.mp hmem with h | h
      · simpa using h
      · exact absurd h (hno line)
  · have hr : doResolvePtrByInfo env usageModule info callInfo s = lookupService env info s := by
      by_cases hi : info.internal = true
      · have hm : usageModule = info.module := by
          by_contra hne
          exact hcond ⟨hi, hne⟩
        simp [doResolvePtrByInfo, checkInternal, hi, hm, Res.andThen]
      · simp [doResolvePtrByInfo, checkInternal, hi, Res.andThen]
    obtain ⟨l, hl, hno⟩ := lookupService_trace env info s
    have he := emitted_append s (doResolvePtrByInfo env usageModule info callInfo s) l
      (by rw [hr, hl])
    rw [he]
    exact ⟨⟨fun h => absurd h (hno _), fun h => absurd h hcond⟩,
      fun line h => absurd h (hno line), fun _ => hr⟩

theorem mapErase_mapAssign_absent (k : Str) (v : Service) (m : ServiceMap)
    (h : mapFind k m = none) : mapErase k (mapAssign k v m) = m := by
  induction m with
  | nil => simp [mapAssign, mapErase]
  | cons kv m ih =>
    obtain ⟨k', v'⟩ := kv
    by_cases h1 : k' = k
    · simp [mapFind, h1] at h
    · simp [mapFind, h1] at h
      simp [mapAssign, mapErase, h1, ih h]

theorem unregister_eq {W : Type} (sig module : Str) (info : InterfaceInfo)
    (s : ModulesIoC W) (hI : getInterfaceInfo sig = some info) :
    unregister sig module s = Res.ret () { s with m_map := mapErase info.id s.m_map } := by
  simp [unregister, interfaceInfoOf_eq sig info s hI, Res.andThen, unregisterService]

theorem resolveRequiredImport_eq {W : Type} (env : Env W) (sig module : Str)
    (info : InterfaceInfo) (s : ModulesIoC W) (hI : getInterfaceInfo sig = some info) :
    resolveRequiredImport env sig module s
      = (resolve env sig module [] s).andThen fun p s2 =>
          if p = 0 then
            (cAssert env false (writeCerr (notFoundLine info) s2)).andThen
              fun _ s3 => Res.ret p s3
          else Res.ret p s2 := by
  simp [resolveRequiredImport, resolve, interfaceInfoOf_eq sig info s hI, Res.andThen]

/-- C5, as stated, fails in a build with `NDEBUG`: `IUpdateConfiguration` has no entry
in the empty registry, and `resolveRequiredImport` writes the not-found line and then
returns the empty handle to its caller; the process is not terminated. -/
theorem required_import_returns_with_ndebug :
    getInterfaceInfo sigUpdateConfiguration = some infoUpdateConfiguration
    ∧ mapFind infoUpdateConfiguration.id emptyIoC.m_map = none
    ∧ resolveRequiredImport (countingEnv true) sigUpdateConfiguration "update".toList emptyIoC
      = Res.ret 0
        { m_map := [],
          trace := [Event.cerr
            "not found implementation for interface: IUpdateConfiguration".toList],
          world := 0 }
    ∧ (resolveRequiredImport (countingEnv true) sigUpdateConfiguration "update".toList
        emptyIoC).returned = true := by
  have h := resolveRequiredImport_eq (countingEnv true) sigUpdateConfiguration
    "update".toList infoUpdateConfiguration emptyIoC getInterfaceInfo_sigUpdateConfiguration
  have h2 := resolve_eq_lookupService (countingEnv true) sigUpdateConfiguration
    "update".toList [] infoUpdateConfiguration emptyIoC
    getInterfaceInfo_sigUpdateConfiguration
  refine ⟨getInterfaceInfo_sigUpdateConfiguration, by decide, ?_, ?_⟩
  · rw [h, h2]
    rfl
  · rw [h, h2]
    rfl

/-- C5, amended. When the identifier of `I` has no entry, `resolve<I>` returns the empty
handle and leaves the state as it was (nothing is written), and
`resolveRequiredImport<I>` writes the not-found line with the identifier and then hits
`assert(false)`: in a build without `NDEBUG` the process is terminated, in a build with
`NDEBUG` the call returns the empty handle. Whenever `resolve<I>` returns a non-empty
handle, `resolveRequiredImport<I>` returns that handle with the same resulting state,
so it writes nothing. -/
theorem required_import_absent_or_found {W : Type} (env : Env W)
    (sig module callInfo : Str) (info : InterfaceInfo) (s : ModulesIoC W)
    (hI : getInterfaceInfo sig = some info) :
    (mapFind info.id s.m_map = none →
      resolve env sig module callInfo s = Res.ret 0 s
      ∧ resolveRequiredImport env sig module s
          = (if env.ndebug then Res.ret 0 (writeCerr (notFoundLine info) s)
             else Res.aborted (writeCerr (notFoundLine info) s)))
    ∧ (∀ h st, resolve env sig module [] s = Res.ret h st → h ≠ 0 →
        resolveRequiredImport env sig module s = Res.ret h st) := by
  constructor
  · intro habs
    have h1 : ∀ ci, resolve env sig module ci s = Res.ret 0 s := fun ci => by
      rw [resolve_eq_lookupService env sig module ci info s hI]
      exact lookupService_absent env info s habs
    refine ⟨h1 callInfo, ?_⟩
    rw [resolveRequiredImport_eq env sig module info s hI, h1 []]
    cases hn : env.ndebug <;> simp [Res.andThen, cAssert, hn]
  · intro h st hres hne
    rw [resolveRequiredImport_eq env sig module info s hI, hres]
    simp [Res.andThen, hne]

/-- C5 amended, at an input: in a build without `NDEBUG`, `resolveRequiredImport` of the
unregistered `IUpdateConfiguration` terminates the process after writing the line. -/
theorem required_import_absent_or_found_witness :
    getInterfaceInfo sigUpdateConfiguration = some infoUpdateConfiguration
    ∧ mapFind infoUpdateConfiguration.id emptyIoC.m_map = none
    ∧ resolve (countingEnv false) sigUpdateConfiguration "update".toList [] emptyIoC
        = Res.ret 0 emptyIoC
    ∧ resolveRequiredImport (countingEnv false) sigUpdateConfiguration "update".toList
        emptyIoC
      = (if (countingEnv false).ndebug
          then Res.ret 0 (writeCerr (notFoundLine infoUpdateConfiguration) emptyIoC)
          else Res.aborted (writeCerr (notFoundLine infoUpdateConfiguration) emptyIoC)) :=
  ⟨getInterfaceInfo_sigUpdateConfiguration, by decide,
    (required_import_absent_or_found (countingEnv false) sigUpdateConfiguration
      "update".toList [] infoUpdateConfiguration emptyIoC
      getInterfaceInfo_sigUpdateConfiguration).1 (by decide)⟩

/-- C6. When the entry of `I` holds the instance `e.p` (not null),
`unregisterIfRegistered<I>(module, p)` with `p` equal to `e.p` returns after erasing the
entry of `I` (the identifier has no entry afterwards and every other identifier keeps
its entry), and with any other `p` returns leaving the whole state as it was. -/
theorem unregisterIfRegistered_current_or_stale {W : Type} (env : Env W)
    (sig module : Str) (info : InterfaceInfo) (e : Service) (p : Nat) (s : ModulesIoC W)
    (hI : getInterfaceInfo sig = some info) (he : mapFind info.id s.m_map = some e)
    (hq : e.p ≠ 0) :
    (p = e.p →
      unregisterIfRegistered env sig module p s
          = Res.ret () { s with m_map := mapErase info.id s.m_map }
      ∧ mapFind info.id (mapErase info.id s.m_map) = none
      ∧ ∀ k, k ≠ info.id → mapFind k (mapErase info.id s.m_map) = mapFind k s.m_map)
    ∧ (p ≠ e.p → unregisterIfRegistered env sig module p s = Res.ret () s) := by
  have hres : resolve env sig module [] s = Res.ret e.p s := by
    rw [resolve_eq_lookupService env sig module [] info s hI]
    exact lookupService_instance env info s e he hq
  constructor
  · intro hp
    refine ⟨?_, mapFind_mapErase_self _ _, fun k hk => mapFind_mapErase_ne _ _ _ hk⟩
    simp [unregisterIfRegistered, hres, Res.andThen, hp, unregister_eq sig module info s hI]
  · intro hp
    have hp2 : ¬ e.p = p := fun h => hp h.symm
    simp [unregisterIfRegistered, hres, Res.andThen, hp2]

/-- C6, at an input: the registry holds the instance 7 for `IUpdateConfiguration`; a
call with the stale handle 9 changes nothing. -/
theorem unregisterIfRegistered_current_or_stale_witness :
    getInterfaceInfo sigUpdateConfiguration = some infoUpdateConfiguration
    ∧ mapFind infoUpdateConfiguration.id
        ({ emptyIoC with
            m_map := [("IUpdateConfiguration".toList, ⟨0, "update".toList, 7⟩)] }).m_map
        = some ⟨0, "update".toList, 7⟩
    ∧ (7 : Nat) ≠ 0 ∧ (9 : Nat) ≠ 7
    ∧ unregisterIfRegistered (countingEnv false) sigUpdateConfiguration "update".toList 9
        { emptyIoC with m_map := [("IUpdateConfiguration".toList, ⟨0, "update".toList, 7⟩)] }
      = Res.ret ()
        { emptyIoC with
          m_map := [("IUpdateConfiguration".toList, ⟨0, "update".toList, 7⟩)] } :=
  ⟨getInterfaceInfo_sigUpdateConfiguration, by decide, by decide, by decide,
    (unregisterIfRegistered_current_or_stale (countingEnv false) sigUpdateConfiguration
      "update".toList infoUpdateConfiguration ⟨0, "update".toList, 7⟩ 9
      { emptyIoC with m_map := [("IUpdateConfiguration".toList, ⟨0, "update".toList, 7⟩)] }
      getInterfaceInfo_sigUpdateConfiguration (by decide) (by decide)).2 (by decide)⟩

/-- C7. For every state, `reset()` returns with an empty `m_map` and nothing else
changed; in the state after it no identifier has an entry, and `resolve<I>` returns the
empty handle for every capability type, from every module and with every hint. -/
theorem reset_clears {W : Type} (env : Env W) (s : ModulesIoC W) :
    reset s = Res.ret () { s with m_map := [] }
    ∧ (∀ k, mapFind k (reset s).state.m_map = none)
    ∧ (∀ sig module callInfo,
        resolve env sig module callInfo (reset s).state = Res.ret 0 (reset s).state) := by
  refine ⟨rfl, fun k => rfl, ?_⟩
  intro sig module callInfo
  obtain ⟨info, hI, _⟩ := getInterfaceInfo_total sig
  rw [resolve_eq_lookupService env sig module callInfo info _ hI]
  exact lookupService_absent env info _ rfl

/-- C8. For every state, `unregister<I>(module)` returns with the entry of the
identifier of `I` erased and nothing else changed: the identifier has no entry
afterwards, every other identifier keeps the entry it had, the whole state is as before
when the identifier had no entry, and the result does not depend on the module. -/
theorem unregister_erases_only_its_identifier {W : Type} (sig module module2 : Str)
    (info : InterfaceInfo) (s : ModulesIoC W) (hI : getInterfaceInfo sig = some info) :
    unregister sig module s = Res.ret () { s with m_map := mapErase info.id s.m_map }
    ∧ mapFind info.id (unregister sig module s).state.m_map = none
    ∧ (∀ k, k ≠ info.id → mapFind k (unregister sig module s).state.m_map = mapFind k s.m_map)
    ∧ (mapFind info.id s.m_map = none → unregister sig module s = Res.ret () s)
    ∧ unregister sig module s = unregister sig module2 s := by
  have h := unregister_eq sig module info s hI
  refine ⟨h, ?_, ?_, ?_, ?_⟩
  · rw [h]
    exact mapFind_mapErase_self _ _
  · intro k hk
    rw [h]
    exact mapFind_mapErase_ne _ _ _ hk
  · intro habs
    rw [h]
    simp [mapErase_of_absent _ _ habs]
  · rw [h, unregister_eq sig module2 info s hI]

/-- C8, at an input: with entries for `IUpdateConfiguration` and for `IOther`,
`unregister<IUpdateConfiguration>` leaves the entry of `IOther` alone. -/
theorem unregister_erases_only_its_identifier_witness :
    getInterfaceInfo sigUpdateConfiguration = some infoUpdateConfiguration
    ∧ unregister sigUpdateConfiguration "update".toList
        { emptyIoC with
          m_map := [("IOther".toList, ⟨4, "other".toList, 0⟩),
            ("IUpdateConfiguration".toList, ⟨0, "update".toList, 7⟩)] }
      = Res.ret ()
        { emptyIoC with m_map := [("IOther".toList, ⟨4, "other".toList, 0⟩)] } :=
  ⟨getInterfaceInfo_sigUpdateConfiguration,
    (unregister_erases_only_its_identifier sigUpdateConfiguration "update".toList []
      infoUpdateConfiguration
      { emptyIoC with
        m_map := [("IOther".toList, ⟨4, "other".toList, 0⟩),
          ("IUpdateConfiguration".toList, ⟨0, "update".toList, 7⟩)] }
      getInterfaceInfo_sigUpdateConfiguration).1⟩

/-- C9. For every state, capability type and module, each of the eight registration
members called with a null provider (a null instance pointer, an empty shared handle,
a null creator) stores nothing and writes nothing: it hits its `assert` on the
provider, so that in a build without `NDEBUG` the process is terminated and in a build
with `NDEBUG` the call returns; in both the state is the one before the call. -/
theorem null_provider_rejected {W : Type} (env : Env W) (sig module : Str)
    (s : ModulesIoC W) :
    ∀ r ∈ [registerExport env sig module 0 s, registerExportShared env sig module 0 s,
        registerExportNoDelete env sig module 0 s, registerExportCreator env sig module 0 s,
        registerInternal env sig module 0 s, registerInternalShared env sig module 0 s,
        registerInternalNoDelete env sig module 0 s,
        registerInternalCreator env sig module 0 s],
      r = (if env.ndebug then Res.ret () s else Res.aborted s)
      ∧ r.state = s
      ∧ ∀ k, mapFind k r.state.m_map = mapFind k s.m_map := by
  intro r hr
  have key : r = (if env.ndebug then Res.ret () s else Res.aborted s) := by
    simp only [List.mem_cons, List.mem_singleton, List.not_mem_nil, or_false] at hr
    cases hn : env.ndebug <;>
      rcases hr with h | h | h | h | h | h | h | h <;> subst h <;>
      simp [registerExport, registerExportShared, registerExportNoDelete,
        registerExportCreator, registerInternal, registerInternalShared,
        registerInternalNoDelete, registerInternalCreator, cAssert, Res.andThen, hn]
  have hs : r.state = s := by
    rw [key]
    cases env.ndebug <;> rfl
  exact ⟨key, hs, fun k => by rw [hs]⟩

/-- C9, at an input: `registerExportCreator<IUpdateConfiguration>` with a null creator on
the empty registry, in a build with `NDEBUG`, returns and leaves the registry empty. -/
theorem null_provider_rejected_witness :
    registerExportCreator (countingEnv true) sigUpdateConfiguration "update".toList 0 emptyIoC
      ∈ [registerExport (countingEnv true) sigUpdateConfiguration "update".toList 0 emptyIoC,
        registerExportShared (countingEnv true) sigUpdateConfiguration "update".toList 0
          emptyIoC,
        registerExportNoDelete (countingEnv true) sigUpdateConfiguration "update".toList 0
          emptyIoC,
        registerExportCreator (countingEnv true) sigUpdateConfiguration "update".toList 0
          emptyIoC,
        registerInternal (countingEnv true) sigUpdateConfiguration "update".toList 0 emptyIoC,
        registerInternalShared (countingEnv true) sigUpdateConfiguration "update".toList 0
          emptyIoC,
        registerInternalNoDelete (countingEnv true) sigUpdateConfiguration "update".toList 0
          emptyIoC,
        registerInternalCreator (countingEnv true) sigUpdateConfiguration "update".toList 0
          emptyIoC]
    ∧ (registerExportCreator (countingEnv true) sigUpdateConfiguration "update".toList 0
        emptyIoC).state = emptyIoC :=
  ⟨by simp,
    (null_provider_rejected (countingEnv true) sigUpdateConfiguration "update".toList emptyIoC
      _ (by simp)).2.1⟩

/-- C10. When the identifier of `I` has no entry and `p1`, `p2` are not null, each of
`registerExport<I>(m, p1)`, `unregister<I>(m)` and `registerExport<I>(m, p2)`, run in
this order, returns without writing anything: the first stores `p1`, the second brings
the state back to the one at the start, the third stores `p2`; `resolve<I>` called
after them returns `p2`. -/
theorem register_unregister_register {W : Type} (env : Env W)
    (sig m usage callInfo : Str) (info : InterfaceInfo) (p1 p2 : Nat) (s : ModulesIoC W)
    (hI : getInterfaceInfo sig = some info) (habs : mapFind info.id s.m_map = none)
    (hp1 : p1 ≠ 0) (hp2 : p2 ≠ 0) :
    registerExport env sig m p1 s
        = Res.ret () { s with m_map := mapAssign info.id ⟨0, m, p1⟩ s.m_map }
    ∧ unregister sig m { s with m_map := mapAssign info.id ⟨0, m, p1⟩ s.m_map } = Res.ret () s
    ∧ registerExport env sig m p2 s
        = Res.ret () { s with m_map := mapAssign info.id ⟨0, m, p2⟩ s.m_map }
    ∧ resolve env sig usage callInfo { s with m_map := mapAssign info.id ⟨0, m, p2⟩ s.m_map }
        = Res.ret p2 { s with m_map := mapAssign info.id ⟨0, m, p2⟩ s.m_map }
    ∧ (((registerExport env sig m p1 s).andThen fun _ s1 => unregister sig m s1).andThen
          fun _ s2 => registerExport env sig m p2 s2).andThen
          (fun _ s3 => resolve env sig usage callInfo s3)
        = Res.ret p2 { s with m_map := mapAssign info.id ⟨0, m, p2⟩ s.m_map } := by
  have h1 : registerExport env sig m p1 s
      = Res.ret () { s with m_map := mapAssign info.id ⟨0, m, p1⟩ s.m_map } := by
    rw [registerExport_nonnull env sig m info p1 s hI hp1]
    exact registerService_absent env m info p1 0 s habs
  have h2 : unregister sig m { s with m_map := mapAssign info.id ⟨0, m, p1⟩ s.m_map }
      = Res.ret () s := by
    rw [unregister_eq sig m info _ hI]
    simp [mapErase_mapAssign_absent _ _ _ habs]
  have h3 : registerExport env sig m p2 s
      = Res.ret () { s with m_map := mapAssign info.id ⟨0, m, p2⟩ s.m_map } := by
    rw [registerExport_nonnull env sig m info p2 s hI hp2]
    exact registerService_absent env m info p2 0 s habs
  have h4 : resolve env sig usage callInfo
      { s with m_map := mapAssign info.id ⟨0, m, p2⟩ s.m_map }
      = Res.ret p2 { s with m_map := mapAssign info.id ⟨0, m, p2⟩ s.m_map } := by
    rw [resolve_eq_lookupService env sig usage callInfo info _ hI]
    exact lookupService_instance env info _ ⟨0, m, p2⟩
      (mapFind_mapAssign_self info.id _ s.m_map) hp2
  refine ⟨h1, h2, h3, h4, ?_⟩
  rw [h1]
  simp only [Res.andThen]
  rw [h2]
  simp only [Res.andThen]
  rw [h3]
  exact h4

/-- C10, at an input: in the empty registry the instance 7 of `IUpdateConfiguration` is
registered, unregistered, and the instance 9 registered; `resolve` then returns 9. -/
theorem register_unregister_register_witness :
    getInterfaceInfo sigUpdateConfiguration = some infoUpdateConfiguration
    ∧ mapFind infoUpdateConfiguration.id emptyIoC.m_map = none
    ∧ (7 : Nat) ≠ 0 ∧ (9 : Nat) ≠ 0
    ∧ (((registerExport (countingEnv false) sigUpdateConfiguration "update".toList 7
            emptyIoC).andThen
          fun _ s1 => unregister sigUpdateConfiguration "update".toList s1).andThen
          fun _ s2 =>
            registerExport (countingEnv false) sigUpdateConfiguration "update".toList 9
              s2).andThen
          (fun _ s3 =>
            resolve (countingEnv false) sigUpdateConfiguration "other".toList [] s3)
        = Res.ret 9
          { m_map := [("IUpdateConfiguration".toList, ⟨0, "update".toList, 9⟩)],
            trace := [], world := 0 } :=
  ⟨getInterfaceInfo_sigUpdateConfiguration, by decide, by decide, by decide,
    (register_unregister_register (countingEnv false) sigUpdateConfiguration
      "update".toList "other".toList [] infoUpdateConfiguration 7 9 emptyIoC
      getInterfaceInfo_sigUpdateConfiguration (by decide) (by decide) (by decide)).2.2.2.2⟩

/-! Facts on the scans of `std::string_view`. -/

theorem npos_val : npos = 18446744073709551615 := by
  unfold npos
  norm_num

theorem sizeAdd_of_lt (a b : Nat) (h : a + b < 2 ^ 64) : sizeAdd a b = a + b :=
  Nat.mod_eq_of_lt h

theorem sizeSub_of_le (a b : Nat) (hb : b ≤ a) (ha : a < 2 ^ 64) : sizeSub a b = a - b := by
  unfold sizeSub
  have h1 : a + 2 ^ 64 - b = (a - b) + 2 ^ 64 := by omega
  rw [h1, Nat.add_mod_right]
  exact Nat.mod_eq_of_lt (by omega)

theorem isPrefixOf_cons_head (a c : Char) (t s : Str)
    (h : (a :: t).isPrefixOf (c :: s) = true) : c = a ∧ t.isPrefixOf s = true := by
  simp only [List.isPrefixOf, Bool.and_eq_true, beq_iff_eq] at h
  exact ⟨h.1.symm, h.2⟩

theorem isPrefixOf_self_append (pat r : Str) : pat.isPrefixOf (pat ++ r) = true := by
  induction pat with
  | nil => simp [List.isPrefixOf]
  | cons a t ih => simp [List.isPrefixOf, ih]

theorem isPrefixOf_append_of_le (pat x y : Str) (h : pat.isPrefixOf (x ++ y) = true)
    (hl : pat.length ≤ x.length) : pat.isPrefixOf x = true := by
  induction pat generalizing x with
  | nil => simp [List.isPrefixOf]
  | cons a t ih =>
    cases x with
    | nil => simp at hl
    | cons c x =>
      simp only [List.cons_append, List.isPrefixOf, Bool.and_eq_true, beq_iff_eq] at h ⊢
      exact ⟨h.1, ih x h.2 (by simpa using hl)⟩

/-- A text that starts with `a :: t` at position `i` has `a` at position `i`. -/
theorem getElem?_of_isPrefixOf_drop (a : Char) (t s : Str) (i : Nat)
    (h : (a :: t).isPrefixOf (s.drop i) = true) : s[i]? = some a := by
  cases hd : s.drop i with
  | nil => rw [hd] at h; simp [List.isPrefixOf] at h
  | cons c r =>
    rw [hd] at h
    have hc := (isPrefixOf_cons_head a c t r h).1
    have h0 : (s.drop i)[0]? = some c := by rw [hd]; simp
    rw [List.getElem?_drop] at h0
    simpa [hc] using h0

/-- A text that starts with `a :: b :: t` at position `i` has `b` at position `i + 1`. -/
theorem getElem?_succ_of_isPrefixOf_drop (a b : Char) (t s : Str) (i : Nat)
    (h : (a :: b :: t).isPrefixOf (s.drop i) = true) : s[i + 1]? = some b := by
  cases hd : s.drop i with
  | nil => rw [hd] at h; simp [List.isPrefixOf] at h
  | cons c r =>
    rw [hd] at h
    have h2 := (isPrefixOf_cons_head a c (b :: t) r h).2
    cases r with
    | nil => simp [List.isPrefixOf] at h2
    | cons d r =>
      have hdb := (isPrefixOf_cons_head b d t r h2).1
      have h1 : (s.drop i)[1]? = some d := by rw [hd]; simp
      rw [List.getElem?_drop] at h1
      simpa [hdb] using h1

/-- The character of `A ++ B ++ C` at a position inside `B` is a character of `B`. -/
theorem getElem?_segment (A B C : Str) (i : Nat) (h1 : A.length ≤ i)
    (h2 : i < A.length + B.length) : ∃ c, c ∈ B ∧ (A ++ B ++ C)[i]? = some c := by
  have hlt : i - A.length < B.length := by omega
  refine ⟨B[i - A.length], List.getElem_mem _, ?_⟩
  rw [List.append_assoc, List.getElem?_append_right h1,
    List.getElem?_append_left hlt, List.getElem?_eq_getElem hlt]

theorem findFrom_hit (pat s : Str) (i : Nat) (h : pat.isPrefixOf s = true) :
    findFrom pat s i = i := by
  cases s with
  | nil => simp [findFrom, h]
  | cons c cs => simp [findFrom, h]

/-- The forward scan passes over a stretch without the first character of `pat`. -/
theorem findFrom_skip (a : Char) (t u w : Str) (i : Nat) (h : a ∉ u) :
    findFrom (a :: t) (u ++ w) i = findFrom (a :: t) w (i + u.length) := by
  induction u generalizing i with
  | nil => simp
  | cons c u ih =>
    have hc : c ≠ a := fun e => h (by simp [e])
    have hu : a ∉ u := fun e => h (List.mem_cons_of_mem _ e)
    have hnp : (a :: t).isPrefixOf (c :: (u ++ w)) = false := by
      simp [List.isPrefixOf, Ne.symm hc]
    have e : findFrom (a :: t) (c :: (u ++ w)) i = findFrom (a :: t) (u ++ w) (i + 1) := by
      rw [findFrom, if_neg (by rw [hnp]; exact Bool.false_ne_true)]
    rw [List.cons_append, e, ih (i + 1) hu, List.length_cons]
    congr 1
    omega

theorem occurs_cons (pat : Str) (c : Char) (cs : Str) :
    occurs pat (c :: cs) = (pat.isPrefixOf (c :: cs) || occurs pat cs) := rfl

theorem findFrom_of_not_occurs (pat s : Str) (i : Nat) (h : occurs pat s = false) :
    findFrom pat s i = npos := by
  induction s generalizing i with
  | nil =>
    simp only [occurs] at h
    simp [findFrom, h]
  | cons c cs ih =>
    rw [occurs_cons, Bool.or_eq_false_iff] at h
    simp [findFrom, h.1, ih (i + 1) h.2]

theorem occurs_false_of_not_mem (a : Char) (t s : Str) (h : a ∉ s) :
    occurs (a :: t) s = false := by
  induction s with
  | nil => simp [occurs, List.isPrefixOf]
  | cons c cs ih =>
    have hc : c ≠ a := fun e => h (by simp [e])
    have hu : a ∉ cs := fun e => h (List.mem_cons_of_mem _ e)
    rw [occurs_cons, ih hu]
    simp [List.isPrefixOf, Ne.symm hc]

theorem occurs_false_drop (pat u : Str) (i : Nat) (h : occurs pat u = false) :
    pat.isPrefixOf (u.drop i) = false := by
  induction u generalizing i with
  | nil =>
    simp only [occurs] at h
    simpa using h
  | cons c cs ih =>
    rw [occurs_cons, Bool.or_eq_false_iff] at h
    cases i with
    | zero => simpa using h.1
    | succ i => simpa using ih i h.2

theorem isPrefixOf_iff_append (pat s : Str) :
    pat.isPrefixOf s = true ↔ ∃ r, s = pat ++ r := by
  induction pat generalizing s with
  | nil => simp [List.isPrefixOf]
  | cons a t ih =>
    cases s with
    | nil => simp [List.isPrefixOf]
    | cons c s =>
      simp only [List.isPrefixOf, Bool.and_eq_true, beq_iff_eq, ih, List.cons_append,
        List.cons.injEq]
      constructor
      · rintro ⟨h1, r, h2⟩
        exact ⟨r, h1.symm, h2⟩
      · rintro ⟨r, h1, h2⟩
        exact ⟨h1.symm, r, h2⟩

/-- `occurs` is the occurrence of `pat` as a contiguous part of `s`. -/
theorem occurs_iff (pat s : Str) : occurs pat s = true ↔ ∃ u v, s = u ++ pat ++ v := by
  induction s with
  | nil =>
    simp only [occurs]
    rw [isPrefixOf_iff_append]
    constructor
    · rintro ⟨r, h⟩
      exact ⟨[], r, by simpa using h⟩
    · rintro ⟨u, v, h⟩
      have hu : u = [] := by
        cases u with
        | nil => rfl
        | cons d u => simp at h
      subst hu
      exact ⟨v, by simpa using h⟩
  | cons c cs ih =>
    rw [occurs_cons, Bool.or_eq_true, ih, isPrefixOf_iff_append]
    constructor
    · rintro (⟨r, h⟩ | ⟨u, v, h⟩)
      · exact ⟨[], r, by simpa using h⟩
      · exact ⟨c :: u, v, by simp [h]⟩
    · rintro ⟨u, v, h⟩
      cases u with
      | nil =>
        left
        exact ⟨v, by simpa using h⟩
      | cons d u =>
        right
        simp only [List.cons_append, List.cons.injEq] at h
        exact ⟨u, v, h.2⟩

/-- When the first character of `pat` is not repeated in `pat`, an occurrence of `pat`
that starts inside a non-empty `w` followed by `pat` lies inside `w`. -/
theorem isPrefixOf_before_pat (a : Char) (t w v : Str) (ha : a ∉ t) (hw : w ≠ [])
    (h : (a :: t).isPrefixOf (w ++ (a :: t) ++ v) = true) :
    (a :: t).isPrefixOf w = true := by
  by_cases hl : (a :: t).length ≤ w.length
  · rw [List.append_assoc] at h
    exact isPrefixOf_append_of_le _ _ _ h hl
  · exfalso
    have hk1 : 0 < w.length := List.length_pos.mpr hw
    have hk2 : w.length < (a :: t).length := by omega
    -- the character of `pat` at position `w.length` is `a`
    have h1 : (a :: t).isPrefixOf ((w ++ (a :: t) ++ v).drop 0) = true := by simpa using h
    have key : ∀ (p s : Str) (k : Nat), p.isPrefixOf s = true → k < p.length →
        s[k]? = p[k]? := by
      intro p
      induction p with
      | nil => intro s k _ hk; simp at hk
      | cons b p ihp =>
        intro s k hs hk
        cases s with
        | nil => simp [List.isPrefixOf] at hs
        | cons d s =>
          obtain ⟨hd, hs2⟩ := isPrefixOf_cons_head b d p s hs
          cases k with
          | zero => simp [hd]
          | succ k => simpa using ihp s k hs2 (by simpa using hk)
    have h2 := key (a :: t) (w ++ (a :: t) ++ v) w.length h hk2
    rw [List.append_assoc, List.getElem?_append_right (Nat.le_refl _)] at h2
    simp only [Nat.sub_self, List.cons_append, List.getElem?_cons_zero] at h2
    obtain ⟨n, hn⟩ : ∃ n, w.length = n + 1 := ⟨w.length - 1, by omega⟩
    rw [hn, List.getElem?_cons_succ] at h2
    have hlt : n < t.length := by simp at hk2; omega
    rw [List.getElem?_eq_getElem hlt] at h2
    have : a = t[n] := by simpa using h2
    exact ha (this ▸ List.getElem_mem _)

/-- The forward scan finds `pat` right after a text in which it does not occur. -/
theorem findFrom_after_clean (a : Char) (t u v : Str) (i : Nat) (ha : a ∉ t)
    (hu : occurs (a :: t) u = false) :
    findFrom (a :: t) (u ++ (a :: t) ++ v) i = i + u.length := by
  induction u generalizing i with
  | nil =>
    simp only [List.nil_append, List.length_nil, Nat.add_zero]
    exact findFrom_hit _ _ _ (isPrefixOf_self_append _ _)
  | cons c u ih =>
    rw [occurs_cons, Bool.or_eq_false_iff] at hu
    have hnp : (a :: t).isPrefixOf (c :: u ++ (a :: t) ++ v) = false := by
      cases hp : (a :: t).isPrefixOf (c :: u ++ (a :: t) ++ v) with
      | false => rfl
      | true =>
        have := isPrefixOf_before_pat a t (c :: u) v ha (by simp) hp
        rw [hu.1] at this
        exact absurd this (by simp)
    have hnp2 : (a :: t).isPrefixOf (c :: (u ++ (a :: t) ++ v)) = false := by
      simpa using hnp
    have e : findFrom (a :: t) (c :: (u ++ (a :: t) ++ v)) i
        = findFrom (a :: t) (u ++ (a :: t) ++ v) (i + 1) := by
      rw [findFrom, if_neg (by rw [hnp2]; exact Bool.false_ne_true)]
    have e2 : c :: u ++ (a :: t) ++ v = c :: (u ++ (a :: t) ++ v) := by simp
    rw [e2, e, ih (i + 1) hu.2, List.length_cons]
    omega

theorem find_zero (sig pat : Str) : find sig pat 0 = findFrom pat sig 0 := by
  simp [find]

/-- The call `find` from the position right after `u`. -/
theorem find_at_append (u w pat : Str) : find (u ++ w) pat u.length = findFrom pat w u.length := by
  unfold find
  rw [if_neg (by simp), List.drop_left]

/-- The backward scan returns the position `j` of an occurrence when no occurrence
starts between `j` and the start position `k`. -/
theorem rfindDown_hit (pat sig : Str) (j k : Nat) (hj : pat.isPrefixOf (sig.drop j) = true)
    (hjk : j ≤ k) (hno : ∀ i, j < i → i ≤ k → pat.isPrefixOf (sig.drop i) = false) :
    rfindDown pat sig k = j := by
  induction k with
  | zero =>
    have : j = 0 := by omega
    subst this
    simp only [List.drop_zero] at hj
    simp [rfindDown, hj]
  | succ k ih =>
    by_cases hjk2 : j = k + 1
    · subst hjk2
      simp [rfindDown, hj]
    · have h1 := hno (k + 1) (by omega) (Nat.le_refl _)
      simp only [rfindDown, h1, Bool.false_eq_true, if_false]
      exact ih (by omega) (fun i hi1 hi2 => hno i hi1 (by omega))

theorem rfindDown_none (pat sig : Str) (k : Nat)
    (hno : ∀ i, i ≤ k → pat.isPrefixOf (sig.drop i) = false) :
    rfindDown pat sig k = npos := by
  induction k with
  | zero =>
    have h := hno 0 (Nat.le_refl _)
    simp only [List.drop_zero] at h
    simp [rfindDown, h]
  | succ k ih =>
    have h1 := hno (k + 1) (Nat.le_refl _)
    simp only [rfindDown, h1, Bool.false_eq_true, if_false]
    exact ih (fun i hi => hno i (by omega))

theorem substr_eq (u m v : Str) (pos n : Nat) (hp : pos = u.length) (hn : n = m.length) :
    substr (u ++ m ++ v) pos n = some m := by
  subst hp hn
  unfold substr
  rw [if_neg (by simp), List.append_assoc, List.drop_left]
  simp [List.take_left']


/-! The extraction rules on texts of the documented shapes. -/

theorem colon_toList : "::".toList = [':', ':'] := rfl

theorem bracket_toList : "]".toList = [']'] := rfl

theorem with_toList : "[with ".toList = ['[', 'w', 'i', 't', 'h', ' '] := rfl

theorem lt_npos_of_lt (a n : Nat) (h1 : a < n) (h2 : n < 2 ^ 64) : a ≠ npos := by
  rw [npos_val]
  omega

/-- The call `find("]")` on a text whose first `]` is right after `u`. -/
theorem find_bracket (u v : Str) (hu : ']' ∉ u) :
    find (u ++ "]".toList ++ v) "]".toList 0 = u.length := by
  rw [find_zero, bracket_toList, List.append_assoc, findFrom_skip ']' [] u _ 0 hu,
    findFrom_hit _ _ _ (isPrefixOf_self_append _ _)]
  omega

/-- No `::` starts at a position inside a stretch `B` without `:`, nor right before it. -/
theorem no_colon_near_segment (A B C : Str) (i : Nat) (hB : ':' ∉ B)
    (h1 : A.length ≤ i + 1) (h2 : i < A.length + B.length) (hne : B ≠ []) :
    [':', ':'].isPrefixOf ((A ++ B ++ C).drop i) = false := by
  cases h : [':', ':'].isPrefixOf ((A ++ B ++ C).drop i) with
  | false => rfl
  | true =>
    exfalso
    by_cases hi : A.length ≤ i
    · obtain ⟨c, hc, hget⟩ := getElem?_segment A B C i hi h2
      have := getElem?_of_isPrefixOf_drop ':' [':'] _ i h
      rw [hget] at this
      have hcc : c = ':' := by simpa using this
      exact hB (hcc ▸ hc)
    · have hpos : 0 < B.length := List.length_pos.mpr hne
      obtain ⟨c, hc, hget⟩ := getElem?_segment A B C (i + 1) (by omega) (by omega)
      have := getElem?_succ_of_isPrefixOf_drop ':' ':' [] _ i h
      rw [hget] at this
      have hcc : c = ':' := by simpa using this
      exact hB (hcc ▸ hc)

/-- The capability-name rule on a text `pre ++ "::" ++ name ++ "]" ++ post`. -/
theorem interfaceName_shape (pre name post : Str) (hpre : ']' ∉ pre) (hname : ']' ∉ name)
    (hcolon : ':' ∉ name)
    (hsize : (pre ++ "::".toList ++ name ++ "]".toList ++ post).length < 2 ^ 64) :
    interfaceName (pre ++ "::".toList ++ name ++ "]".toList ++ post) = some name := by
  have hlen : (pre ++ "::".toList ++ name ++ "]".toList ++ post).length
      = pre.length + 2 + name.length + 1 + post.length := by
    simp [colon_toList, bracket_toList]
    omega
  have hfind : find (pre ++ "::".toList ++ name ++ "]".toList ++ post) "]".toList 0
      = pre.length + 2 + name.length := by
    rw [find_bracket (pre ++ "::".toList ++ name) post (by simp [colon_toList, hpre, hname])]
    simp [colon_toList]
    omega
  have hrfind : rfind (pre ++ "::".toList ++ name ++ "]".toList ++ post) "::".toList
      (pre.length + 2 + name.length) = pre.length := by
    unfold rfind
    rw [if_pos (by rw [hlen]; simp [colon_toList]; omega)]
    apply rfindDown_hit
    · have e : pre ++ "::".toList ++ name ++ "]".toList ++ post
          = pre ++ ("::".toList ++ (name ++ "]".toList ++ post)) := by simp
      rw [e, List.drop_left]
      exact isPrefixOf_self_append _ _
    · rw [hlen]
      simp only [colon_toList, List.length_cons, List.length_nil]
      omega
    · intro i hi1 hi2
      have e : pre ++ "::".toList ++ name ++ "]".toList ++ post
          = (pre ++ "::".toList) ++ (name ++ "]".toList) ++ post := by simp
      rw [e, colon_toList]
      apply no_colon_near_segment
      · simp [bracket_toList, hcolon]
      · simp; omega
      · have : i ≤ pre.length + 2 + name.length := le_trans hi2 (Nat.min_le_right _ _)
        simp [bracket_toList]
        omega
      · simp [bracket_toList]
  unfold interfaceName
  simp only [hfind, hrfind]
  rw [if_neg (lt_npos_of_lt _ _ (by rw [hlen]; omega) hsize),
    if_neg (lt_npos_of_lt _ _ (by rw [hlen]; omega) hsize),
    sizeAdd_of_lt _ _ (by rw [hlen] at hsize; omega),
    sizeSub_of_le _ _ (by omega) (by rw [hlen] at hsize; omega)]
  have e : pre ++ "::".toList ++ name ++ "]".toList ++ post
      = (pre ++ "::".toList) ++ name ++ ("]".toList ++ post) := by simp
  rw [e]
  exact substr_eq _ _ _ _ _ (by simp [colon_toList]) (by omega)


theorem find_at (u w pat : Str) (n : Nat) (hn : n = u.length) :
    find (u ++ w) pat n = findFrom pat w n := by
  subst hn
  exact find_at_append u w pat

/-- The first two scans of `moduleNameByInterface` on a text
`pre ++ "[with " ++ a ++ "::" ++ tail`. -/
theorem moduleNameByInterface_begin (pre a tail : Str)
    (hpre : occurs "[with ".toList pre = false) (ha : ':' ∉ a) :
    find (pre ++ "[with ".toList ++ a ++ "::".toList ++ tail) "[with ".toList 0 = pre.length
    ∧ find (pre ++ "[with ".toList ++ a ++ "::".toList ++ tail) "::".toList pre.length
        = pre.length + 6 + a.length := by
  constructor
  · have e : pre ++ "[with ".toList ++ a ++ "::".toList ++ tail
        = pre ++ "[with ".toList ++ (a ++ "::".toList ++ tail) := by simp
    rw [find_zero, e, with_toList]
    rw [with_toList] at hpre
    rw [findFrom_after_clean '[' ['w', 'i', 't', 'h', ' '] pre _ 0 (by decide) hpre]
    omega
  · have e : pre ++ "[with ".toList ++ a ++ "::".toList ++ tail
        = pre ++ (("[with ".toList ++ a) ++ ("::".toList ++ tail)) := by simp
    rw [e, find_at pre _ _ _ rfl, colon_toList,
      findFrom_skip ':' [':'] ("[with ".toList ++ a) _ pre.length
        (by simp [with_toList, ha]),
      findFrom_hit _ _ _ (isPrefixOf_self_append _ _)]
    simp [with_toList]
    omega

/-- C11. For every text `pre ++ "[with " ++ a ++ "::" ++ mod ++ "::" ++ rest` (of a size
that fits `std::size_t`) where `"[with "` does not occur in `pre` and neither `a` nor
`mod` contains `:`, `moduleNameByInterface` returns exactly `mod`. -/
theorem moduleNameByInterface_returns_module (pre a mod rest : Str)
    (hpre : occurs "[with ".toList pre = false) (ha : ':' ∉ a) (hmod : ':' ∉ mod)
    (hsize : (pre ++ "[with ".toList ++ a ++ "::".toList ++ mod ++ "::".toList
      ++ rest).length < 2 ^ 64) :
    moduleNameByInterface
        (pre ++ "[with ".toList ++ a ++ "::".toList ++ mod ++ "::".toList ++ rest)
      = some mod := by
  have hlen : (pre ++ "[with ".toList ++ a ++ "::".toList ++ mod ++ "::".toList
      ++ rest).length = pre.length + 6 + a.length + 2 + mod.length + 2 + rest.length := by
    simp [colon_toList, with_toList]
    omega
  have e0 : pre ++ "[with ".toList ++ a ++ "::".toList ++ mod ++ "::".toList ++ rest
      = pre ++ "[with ".toList ++ a ++ "::".toList ++ (mod ++ "::".toList ++ rest) := by simp
  obtain ⟨h1, h2⟩ := moduleNameByInterface_begin pre a (mod ++ "::".toList ++ rest) hpre ha
  rw [← e0] at h1 h2
  have h3 : find (pre ++ "[with ".toList ++ a ++ "::".toList ++ mod ++ "::".toList ++ rest)
      "::".toList (pre.length + 6 + a.length + 2) = pre.length + 6 + a.length + 2 + mod.length := by
    have e : pre ++ "[with ".toList ++ a ++ "::".toList ++ mod ++ "::".toList ++ rest
        = (pre ++ "[with ".toList ++ a ++ "::".toList) ++ (mod ++ ("::".toList ++ rest)) := by
      simp
    rw [e, find_at _ _ _ _ (by simp [colon_toList, with_toList]; omega), colon_toList,
      findFrom_skip ':' [':'] mod _ _ hmod,
      findFrom_hit _ _ _ (isPrefixOf_self_append _ _)]
  unfold moduleNameByInterface
  simp only [h1, h2]
  rw [if_neg (lt_npos_of_lt _ _ (by rw [hlen]; omega) hsize),
    if_neg (lt_npos_of_lt _ _ (by rw [hlen]; omega) hsize),
    sizeAdd_of_lt _ _ (by rw [hlen] at hsize; omega), h3,
    if_neg (lt_npos_of_lt _ _ (by rw [hlen]; omega) hsize),
    sizeSub_of_le _ _ (by omega) (by rw [hlen] at hsize; omega)]
  have e : pre ++ "[with ".toList ++ a ++ "::".toList ++ mod ++ "::".toList ++ rest
      = (pre ++ "[with ".toList ++ a ++ "::".toList) ++ mod ++ ("::".toList ++ rest) := by
    simp
  rw [e]
  exact substr_eq _ _ _ _ _ (by simp [colon_toList, with_toList]; omega) (by omega)

/-- The module-name rule on a text `pre ++ "[with " ++ a ++ "::" ++ name ++ "]"`: the
type has one segment after its first separator. -/
theorem moduleNameByInterface_shape_last (pre a name : Str)
    (hpre : occurs "[with ".toList pre = false) (ha : ':' ∉ a) (hname : ':' ∉ name)
    (hsize : (pre ++ "[with ".toList ++ a ++ "::".toList ++ name ++ "]".toList).length
      < 2 ^ 64) :
    moduleNameByInterface (pre ++ "[with ".toList ++ a ++ "::".toList ++ name ++ "]".toList)
      = some name := by
  have hlen : (pre ++ "[with ".toList ++ a ++ "::".toList ++ name ++ "]".toList).length
      = pre.length + 6 + a.length + 2 + name.length + 1 := by
    simp [colon_toList, with_toList, bracket_toList]
    omega
  have e0 : pre ++ "[with ".toList ++ a ++ "::".toList ++ name ++ "]".toList
      = pre ++ "[with ".toList ++ a ++ "::".toList ++ (name ++ "]".toList) := by simp
  obtain ⟨h1, h2⟩ := moduleNameByInterface_begin pre a (name ++ "]".toList) hpre ha
  rw [← e0] at h1 h2
  have h3 : find (pre ++ "[with ".toList ++ a ++ "::".toList ++ name ++ "]".toList)
      "::".toList (pre.length + 6 + a.length + 2) = npos := by
    rw [e0, find_at _ _ _ _ (by simp [colon_toList, with_toList]; omega), colon_toList]
    exact findFrom_of_not_occurs _ _ _
      (occurs_false_of_not_mem ':' [':'] _ (by simp [bracket_toList, hname]))
  unfold moduleNameByInterface
  simp only [h1, h2]
  rw [if_neg (lt_npos_of_lt _ _ (by rw [hlen]; omega) hsize),
    if_neg (lt_npos_of_lt _ _ (by rw [hlen]; omega) hsize),
    sizeAdd_of_lt _ _ (by rw [hlen] at hsize; omega), h3, if_pos rfl,
    sizeSub_of_le _ _ (by rw [hlen]; omega) hsize,
    sizeSub_of_le _ _ (by rw [hlen]; omega) (by rw [hlen] at hsize ⊢; omega)]
  have e : pre ++ "[with ".toList ++ a ++ "::".toList ++ name ++ "]".toList
      = (pre ++ "[with ".toList ++ a ++ "::".toList) ++ name ++ "]".toList := by simp
  rw [e]
  exact substr_eq _ _ _ _ _ (by simp [colon_toList, with_toList]; omega)
    (by rw [← e, hlen]; omega)

theorem interfaceName_no_bracket (sig : Str) (h : ']' ∉ sig) :
    interfaceName sig = some sig := by
  unfold interfaceName
  simp only
  rw [find_zero, bracket_toList,
    findFrom_of_not_occurs _ _ _ (occurs_false_of_not_mem ']' [] sig h), if_pos rfl]

theorem interfaceName_no_colon_before (pre post : Str) (hpre : ']' ∉ pre)
    (hcolon : occurs "::".toList pre = false) :
    interfaceName (pre ++ "]".toList ++ post) = some (pre ++ "]".toList ++ post) := by
  unfold interfaceName
  simp only [find_bracket pre post hpre]
  by_cases hn : pre.length = npos
  · rw [if_pos hn]
  · rw [if_neg hn]
    have hr : rfind (pre ++ "]".toList ++ post) "::".toList pre.length = npos := by
      unfold rfind
      split
      · apply rfindDown_none
        intro i hi
        have hi2 : i ≤ pre.length := le_trans hi (Nat.min_le_right _ _)
        rw [colon_toList] at hcolon ⊢
        cases h : [':', ':'].isPrefixOf ((pre ++ "]".toList ++ post).drop i) with
        | false => rfl
        | true =>
          exfalso
          by_cases h2 : i + 2 ≤ pre.length
          · rw [List.append_assoc, List.drop_append_of_le_length (by omega)] at h
            have := isPrefixOf_append_of_le _ _ _ h (by simp; omega)
            rw [occurs_false_drop _ _ i hcolon] at this
            exact absurd this (by simp)
          · by_cases h3 : i = pre.length
            · have := getElem?_of_isPrefixOf_drop ':' [':'] _ i h
              rw [h3, List.append_assoc, List.getElem?_append_right (Nat.le_refl _)] at this
              simp [bracket_toList] at this
            · have := getElem?_succ_of_isPrefixOf_drop ':' ':' [] _ i h
              have h4 : i + 1 = pre.length := by omega
              rw [h4, List.append_assoc, List.getElem?_append_right (Nat.le_refl _)] at this
              simp [bracket_toList] at this
      · rfl
    rw [hr, if_pos rfl]

theorem moduleNameByInterface_no_with (sig : Str) (h : occurs "[with ".toList sig = false) :
    moduleNameByInterface sig = some sig := by
  unfold moduleNameByInterface
  simp only
  rw [find_zero, findFrom_of_not_occurs _ _ _ h, if_pos rfl]

theorem moduleNameByInterface_no_colon_after (pre post : Str)
    (hpre : occurs "[with ".toList pre = false)
    (hcolon : occurs "::".toList ("[with ".toList ++ post) = false) :
    moduleNameByInterface (pre ++ "[with ".toList ++ post)
      = some (pre ++ "[with ".toList ++ post) := by
  have h1 : find (pre ++ "[with ".toList ++ post) "[with ".toList 0 = pre.length := by
    rw [find_zero, with_toList]
    rw [with_toList] at hpre
    rw [findFrom_after_clean '[' ['w', 'i', 't', 'h', ' '] pre _ 0 (by decide) hpre]
    omega
  have h2 : find (pre ++ "[with ".toList ++ post) "::".toList pre.length = npos := by
    rw [List.append_assoc, find_at pre _ _ _ rfl]
    exact findFrom_of_not_occurs _ _ _ hcolon
  unfold moduleNameByInterface
  simp only [h1, h2]
  by_cases hn : pre.length = npos
  · rw [if_pos hn]
  · rw [if_neg hn, if_pos True.intro]


theorem paren_toList : "(".toList = ['('] := rfl

theorem space_toList : " ".toList = [' '] := rfl

/-- The forward scan of `find_first_of` passes over characters that are not in `set`. -/
theorem findFirstOfFrom_skip (set u w : Str) (i : Nat) (h : ∀ c ∈ u, c ∉ set) :
    findFirstOfFrom set (u ++ w) i = findFirstOfFrom set w (i + u.length) := by
  induction u generalizing i with
  | nil => simp
  | cons c u ih =>
    have hc : c ∉ set := h c (by simp)
    have hu : ∀ d ∈ u, d ∉ set := fun d hd => h d (List.mem_cons_of_mem _ hd)
    rw [List.cons_append, findFirstOfFrom, if_neg hc, ih (i + 1) hu, List.length_cons]
    congr 1
    omega

theorem findFirstOfFrom_hit (set w : Str) (c : Char) (i : Nat) (h : c ∈ set) :
    findFirstOfFrom set (c :: w) i = i := by
  rw [findFirstOfFrom, if_pos h]

theorem find_first_of_at (u w set : Str) (n : Nat) (hn : n = u.length) (hset : set ≠ []) :
    find_first_of (u ++ w) set n = findFirstOfFrom set w n := by
  subst hn
  unfold find_first_of
  rw [if_neg (by simpa using hset), List.drop_left]

theorem charIn_of_getElem? (set sig : Str) (k : Nat) (c : Char) (h : sig[k]? = some c)
    (hc : c ∈ set) : charIn set sig k = true := by
  simp [charIn, h, hc]

theorem charIn_false_of_getElem? (set sig : Str) (k : Nat) (c : Char) (h : sig[k]? = some c)
    (hc : c ∉ set) : charIn set sig k = false := by
  simp [charIn, h, hc]

/-- The backward scan of `find_last_of` returns the position `j` of a character of
`set` when no character of `set` stands between `j` and the start position `k`. -/
theorem findLastOfDown_hit (set sig : Str) (j k : Nat) (hj : charIn set sig j = true)
    (hjk : j ≤ k) (hno : ∀ i, j < i → i ≤ k → charIn set sig i = false) :
    findLastOfDown set sig k = j := by
  induction k with
  | zero =>
    have : j = 0 := by omega
    subst this
    simp [findLastOfDown, hj]
  | succ k ih =>
    by_cases hjk2 : j = k + 1
    · subst hjk2
      simp [findLastOfDown, hj]
    · have h1 := hno (k + 1) (by omega) (Nat.le_refl _)
      simp only [findLastOfDown, h1, Bool.false_eq_true, if_false]
      exact ih (by omega) (fun i hi1 hi2 => hno i hi1 (by omega))

/-- C13. For every text `ret ++ " " ++ ns ++ "::" ++ mod ++ "::" ++ rest ++ "(" ++ args`
(of a size that fits `std::size_t`) where `ret` contains no `(`, `ns` and `mod` contain
none of the space, `:` and `(`, and `rest` contains no space and no `(`,
`moduleNameBySig` returns exactly `mod`, the second namespace segment. -/
theorem moduleNameBySig_returns_module (ret ns mod rest args : Str)
    (hret : '(' ∉ ret)
    (hns : ' ' ∉ ns ∧ ':' ∉ ns ∧ '(' ∉ ns)
    (hmod : ' ' ∉ mod ∧ ':' ∉ mod ∧ '(' ∉ mod)
    (hrest : ' ' ∉ rest ∧ '(' ∉ rest)
    (hsize : (ret ++ " ".toList ++ ns ++ "::".toList ++ mod ++ "::".toList ++ rest
      ++ "(".toList ++ args).length < 2 ^ 64) :
    moduleNameBySig (ret ++ " ".toList ++ ns ++ "::".toList ++ mod ++ "::".toList ++ rest
      ++ "(".toList ++ args) = some mod := by
  have hlen : (ret ++ " ".toList ++ ns ++ "::".toList ++ mod ++ "::".toList ++ rest
      ++ "(".toList ++ args).length
      = ret.length + 1 + ns.length + 2 + mod.length + 2 + rest.length + 1 + args.length := by
    simp [colon_toList, paren_toList, space_toList]
    omega
  have hend : find_first_of (ret ++ " ".toList ++ ns ++ "::".toList ++ mod ++ "::".toList
      ++ rest ++ "(".toList ++ args) "(".toList 0
      = ret.length + 1 + ns.length + 2 + mod.length + 2 + rest.length := by
    have e : ret ++ " ".toList ++ ns ++ "::".toList ++ mod ++ "::".toList ++ rest
        ++ "(".toList ++ args
        = [] ++ ((ret ++ " ".toList ++ ns ++ "::".toList ++ mod ++ "::".toList ++ rest)
          ++ ('(' :: args)) := by simp [paren_toList]
    rw [e, find_first_of_at [] _ _ 0 rfl (by simp [paren_toList]), paren_toList,
      findFirstOfFrom_skip _ _ _ _ (by
        intro c hc
        simp only [List.mem_append, colon_toList, space_toList, List.mem_cons,
          List.mem_singleton, List.not_mem_nil, or_false] at hc
        simp only [List.mem_singleton]
        rintro rfl
        rcases hc with ((((((h | h) | h) | h) | h) | h) | h)
        · exact hret h
        · exact absurd h (by decide)
        · exact hns.2.2 h
        · rcases h with h | h <;> exact absurd h (by decide)
        · exact hmod.2.2 h
        · rcases h with h | h <;> exact absurd h (by decide)
        · exact hrest.2 h),
      findFirstOfFrom_hit _ _ _ _ (by simp)]
    simp [colon_toList, space_toList]
    omega
  have hbegin : find_last_of (ret ++ " ".toList ++ ns ++ "::".toList ++ mod ++ "::".toList
      ++ rest ++ "(".toList ++ args) " ".toList
      (ret.length + 1 + ns.length + 2 + mod.length + 2 + rest.length) = ret.length := by
    unfold find_last_of
    rw [if_pos ⟨by rw [hlen]; omega, by simp [space_toList]⟩]
    have e : ret ++ " ".toList ++ ns ++ "::".toList ++ mod ++ "::".toList ++ rest
        ++ "(".toList ++ args
        = (ret ++ " ".toList) ++ (ns ++ "::".toList ++ mod ++ "::".toList ++ rest ++ "(".toList)
          ++ args := by simp
    apply findLastOfDown_hit
    · apply charIn_of_getElem? _ _ _ ' '
      · have e2 : ret ++ " ".toList ++ ns ++ "::".toList ++ mod ++ "::".toList ++ rest
            ++ "(".toList ++ args
            = ret ++ (' ' :: (ns ++ "::".toList ++ mod ++ "::".toList ++ rest
              ++ "(".toList ++ args)) := by simp [space_toList]
        rw [e2, List.getElem?_append_right (Nat.le_refl _)]
        simp
      · simp [space_toList]
    · rw [hlen]
      omega
    · intro i hi1 hi2
      have hi3 : i ≤ ret.length + 1 + ns.length + 2 + mod.length + 2 + rest.length :=
        le_trans hi2 (Nat.min_le_right _ _)
      obtain ⟨c, hc, hget⟩ := getElem?_segment (ret ++ " ".toList)
        (ns ++ "::".toList ++ mod ++ "::".toList ++ rest ++ "(".toList) args i
        (by simp [space_toList]; omega)
        (by simp [space_toList, colon_toList, paren_toList]; omega)
      rw [e]
      apply charIn_false_of_getElem? _ _ _ c hget
      simp only [List.mem_append, colon_toList, paren_toList, List.mem_cons,
        List.mem_singleton, List.not_mem_nil, or_false] at hc
      simp only [space_toList, List.mem_singleton]
      rintro rfl
      rcases hc with ((((h | h) | h) | h) | h) | h
      · exact hns.1 h
      · rcases h with h | h <;> exact absurd h (by decide)
      · exact hmod.1 h
      · rcases h with h | h <;> exact absurd h (by decide)
      · exact hrest.1 h
      · exact absurd h (by decide)
  have hcolon1 : find_first_of (ret ++ " ".toList ++ ns ++ "::".toList ++ mod ++ "::".toList
      ++ rest ++ "(".toList ++ args) "::".toList ret.length
      = ret.length + 1 + ns.length := by
    have e : ret ++ " ".toList ++ ns ++ "::".toList ++ mod ++ "::".toList ++ rest
        ++ "(".toList ++ args
        = ret ++ ((" ".toList ++ ns) ++ (':' :: (':' :: (mod ++ "::".toList ++ rest
          ++ "(".toList ++ args)))) := by simp [colon_toList]
    rw [e, find_first_of_at ret _ _ _ rfl (by simp [colon_toList]),
      findFirstOfFrom_skip _ _ _ _ (by
        intro c hc
        simp only [List.mem_append, space_toList, List.mem_singleton] at hc
        simp only [colon_toList, List.mem_cons, List.mem_singleton, List.not_mem_nil,
          or_false, or_self]
        rintro rfl
        rcases hc with h | h
        · exact absurd h (by decide)
        · exact hns.2.1 h),
      findFirstOfFrom_hit _ _ _ _ (by simp [colon_toList])]
    simp [space_toList]
    omega
  have hcolon2 : find_first_of (ret ++ " ".toList ++ ns ++ "::".toList ++ mod ++ "::".toList
      ++ rest ++ "(".toList ++ args) "::".toList (ret.length + 1 + ns.length + 2)
      = ret.length + 1 + ns.length + 2 + mod.length := by
    have e : ret ++ " ".toList ++ ns ++ "::".toList ++ mod ++ "::".toList ++ rest
        ++ "(".toList ++ args
        = (ret ++ " ".toList ++ ns ++ "::".toList) ++ (mod ++ (':' :: (':' :: (rest
          ++ "(".toList ++ args)))) := by simp [colon_toList]
    rw [e, find_first_of_at _ _ _ _ (by simp [space_toList, colon_toList]; omega)
        (by simp [colon_toList]),
      findFirstOfFrom_skip _ _ _ _ (by
        intro c hc
        simp only [colon_toList, List.mem_cons, List.mem_singleton, List.not_mem_nil,
          or_false, or_self]
        rintro rfl
        exact hmod.2.1 hc),
      findFirstOfFrom_hit _ _ _ _ (by simp [colon_toList])]
  unfold moduleNameBySig
  simp only [hend, hbegin, hcolon1]
  rw [if_neg (lt_npos_of_lt _ _ (by rw [hlen]; omega) hsize),
    if_neg (lt_npos_of_lt _ _ (by rw [hlen]; omega) hsize),
    sizeAdd_of_lt _ _ (by rw [hlen] at hsize; omega), hcolon2,
    sizeSub_of_le _ _ (by omega) (by rw [hlen] at hsize; omega)]
  have e : ret ++ " ".toList ++ ns ++ "::".toList ++ mod ++ "::".toList ++ rest
      ++ "(".toList ++ args
      = (ret ++ " ".toList ++ ns ++ "::".toList) ++ mod ++ ("::".toList ++ rest
        ++ "(".toList ++ args) := by simp
  rw [e]
  exact substr_eq _ _ _ _ _ (by simp [space_toList, colon_toList]; omega) (by omega)


/-! The registry under resolution and under sequences of calls. -/

theorem lookupService_ret {W : Type} (env : Env W) (info : InterfaceInfo) (s : ModulesIoC W) :
    ∃ v s1, lookupService env info s = Res.ret v s1
      ∧ s1.m_map = mapAfterLookup env info s := by
  unfold lookupService mapAfterLookup
  cases h : mapFind info.id s.m_map with
  | none => exact ⟨0, s, rfl, rfl⟩
  | some inj =>
    by_cases hp : inj.p = 0
    · by_cases hc : inj.c = 0
      · exact ⟨0, s, by simp [hp, hc], by simp [hp, hc]⟩
      · exact ⟨(env.create inj.c s.m_map s.world).handle,
          { m_map := applyReentries (env.create inj.c s.m_map s.world).calls s.m_map,
            trace := s.trace ++ [Event.create inj.c],
            world := (env.create inj.c s.m_map s.world).world },
          by simp [hp, hc], by simp [hp, hc]⟩
    · exact ⟨inj.p, s, by simp [hp], by simp [hp]⟩

theorem mapAfterLookup_absent {W : Type} (env : Env W) (info : InterfaceInfo)
    (s : ModulesIoC W) (h : mapFind info.id s.m_map = none) :
    mapAfterLookup env info s = s.m_map := by
  simp [mapAfterLookup, h]

theorem mapAfterLookup_instance {W : Type} (env : Env W) (info : InterfaceInfo)
    (s : ModulesIoC W) (e : Service) (h : mapFind info.id s.m_map = some e) (hp : e.p ≠ 0) :
    mapAfterLookup env info s = s.m_map := by
  simp [mapAfterLookup, h, hp]

theorem mapAfterLookup_creator {W : Type} (env : Env W) (info : InterfaceInfo)
    (s : ModulesIoC W) (e : Service) (h : mapFind info.id s.m_map = some e) (hp : e.p = 0)
    (hc : e.c ≠ 0) :
    mapAfterLookup env info s
      = applyReentries (env.create e.c s.m_map s.world).calls s.m_map := by
  simp [mapAfterLookup, h, hp, hc]

/-- The lookup leaves `m_map` as it was when the identifier has no entry, when its entry
holds an instance or no creator, and when the creator leaves `m_map` as it found it. -/
theorem mapAfterLookup_keep {W : Type} (env : Env W) (info : InterfaceInfo)
    (s : ModulesIoC W)
    (h : mapFind info.id s.m_map = none
      ∨ ∃ e, mapFind info.id s.m_map = some e
        ∧ (e.p ≠ 0 ∨ e.c = 0
          ∨ applyReentries (env.create e.c s.m_map s.world).calls s.m_map = s.m_map)) :
    mapAfterLookup env info s = s.m_map := by
  rcases h with h | ⟨e, he, h⟩
  · exact mapAfterLookup_absent env info s h
  · unfold mapAfterLookup
    simp only [he]
    by_cases hp : e.p = 0
    · by_cases hc : e.c = 0
      · simp [hp, hc]
      · rcases h with h | h | h
        · exact absurd hp h
        · exact absurd h hc
        · simp [hp, hc, h]
    · simp [hp]

/-- The map at the end of `doResolvePtrByInfo`: the one the lookup leaves, or `m_map`
itself when the process is terminated before the lookup. -/
theorem doResolvePtrByInfo_m_map {W : Type} (env : Env W) (usageModule : Str)
    (info : InterfaceInfo) (callInfo : Str) (s : ModulesIoC W) :
    (doResolvePtrByInfo env usageModule info callInfo s).state.m_map
      = (if info.internal = true ∧ usageModule ≠ info.module ∧ env.ndebug = false
          then s.m_map else mapAfterLookup env info s) := by
  obtain ⟨v, s1, h1, h2⟩ := lookupService_ret env info s
  obtain ⟨v2, s2, h3, h4⟩ := lookupService_ret env info
    (writeCerr (internalUsageLine usageModule info callInfo) s)
  unfold doResolvePtrByInfo checkInternal
  by_cases hi : info.internal = true
  · by_cases hm : usageModule = info.module
    · simp only [hi, hm, Res.andThen, if_true, ne_eq, not_true_eq_false, if_false, h1,
        false_and, and_false]
      exact h2
    · cases hn : env.ndebug
      · simp [hi, hm, hn, Res.andThen, Res.state, writeCerr]
      · simp only [hi, hm, hn, Res.andThen, if_true, ne_eq, not_false_eq_true, h3,
          Bool.true_eq_false, and_false, if_false]
        exact h4
  · simp only [hi, Res.andThen, Bool.false_eq_true, if_false, h1, false_and]
    exact h2

theorem resolve_m_map {W : Type} (env : Env W) (sig module callInfo : Str)
    (info : InterfaceInfo) (s : ModulesIoC W) (hI : getInterfaceInfo sig = some info) :
    (resolve env sig module callInfo s).state.m_map = mapAfterLookup env info s := by
  obtain ⟨v, s1, h1, h2⟩ := lookupService_ret env info s
  rw [resolve_eq_lookupService env sig module callInfo info s hI, h1]
  exact h2

theorem resolveRequiredImport_m_map {W : Type} (env : Env W) (sig module : Str)
    (info : InterfaceInfo) (s : ModulesIoC W) (hI : getInterfaceInfo sig = some info) :
    (resolveRequiredImport env sig module s).state.m_map = mapAfterLookup env info s := by
  obtain ⟨v, s1, h1, h2⟩ := lookupService_ret env info s
  rw [resolveRequiredImport_eq env sig module info s hI,
    resolve_eq_lookupService env sig module [] info s hI, h1]
  by_cases hv : v = 0
  · cases hn : env.ndebug <;>
      simp [Res.andThen, hv, cAssert, hn, Res.state, writeCerr, h2]
  · simp [Res.andThen, hv, Res.state, h2]

theorem allExactlyOne_mapAssign (k : Str) (v : Service) (m : ServiceMap)
    (hv : v.exactlyOne = true) (hm : allExactlyOne m = true) :
    allExactlyOne (mapAssign k v m) = true := by
  induction m with
  | nil => simp [mapAssign, allExactlyOne, hv]
  | cons kv m ih =>
    obtain ⟨k2, v2⟩ := kv
    simp only [allExactlyOne, List.all_cons, Bool.and_eq_true] at hm
    by_cases h : k2 = k
    · simp only [mapAssign, h, if_true, allExactlyOne, List.all_cons, Bool.and_eq_true]
      exact ⟨hv, hm.2⟩
    · simp only [mapAssign, h, if_false, allExactlyOne, List.all_cons, Bool.and_eq_true]
      exact ⟨hm.1, ih hm.2⟩

theorem allExactlyOne_mapErase (k : Str) (m : ServiceMap) (hm : allExactlyOne m = true) :
    allExactlyOne (mapErase k m) = true := by
  induction m with
  | nil => simp [mapErase, allExactlyOne]
  | cons kv m ih =>
    obtain ⟨k2, v2⟩ := kv
    simp only [allExactlyOne, List.all_cons, Bool.and_eq_true] at hm
    by_cases h : k2 = k
    · simp only [mapErase, h, if_true]
      exact ih hm.2
    · simp only [mapErase, h, if_false, allExactlyOne, List.all_cons, Bool.and_eq_true]
      exact ⟨hm.1, ih hm.2⟩

theorem exactlyOne_instance (module : Str) (p : Nat) (hp : p ≠ 0) :
    (Service.mk 0 module p).exactlyOne = true := by
  simp [Service.exactlyOne, hp]

theorem exactlyOne_creator (module : Str) (c : Nat) (hc : c ≠ 0) :
    (Service.mk c module 0).exactlyOne = true := by
  simp [Service.exactlyOne, hc]

theorem allExactlyOne_applyReentry (r : Reentry) (m : ServiceMap)
    (hm : allExactlyOne m = true) : allExactlyOne (applyReentry r m) = true := by
  cases r with
  | registerInstance sig module p =>
    simp only [applyReentry]
    by_cases hp : p = 0
    · rw [if_pos hp]
      exact hm
    · rw [if_neg hp]
      cases getInterfaceInfo sig with
      | none => exact hm
      | some info =>
        cases h : mapFind info.id m with
        | some e =>
          simp only [h]
          exact hm
        | none =>
          simp only [h]
          exact allExactlyOne_mapAssign _ _ _ (exactlyOne_instance module p hp) hm
  | registerCreator sig module c =>
    simp only [applyReentry]
    by_cases hc : c = 0
    · rw [if_pos hc]
      exact hm
    · rw [if_neg hc]
      cases getInterfaceInfo sig with
      | none => exact hm
      | some info =>
        cases h : mapFind info.id m with
        | some e =>
          simp only [h]
          exact hm
        | none =>
          simp only [h]
          exact allExactlyOne_mapAssign _ _ _ (exactlyOne_creator module c hc) hm
  | unregister sig =>
    simp only [applyReentry]
    cases getInterfaceInfo sig with
    | none => exact hm
    | some info => exact allExactlyOne_mapErase _ _ hm
  | reset => rfl

theorem allExactlyOne_applyReentries (rs : List Reentry) (m : ServiceMap)
    (hm : allExactlyOne m = true) : allExactlyOne (applyReentries rs m) = true := by
  induction rs generalizing m with
  | nil => exact hm
  | cons r rs ih => exact ih _ (allExactlyOne_applyReentry r m hm)

theorem allExactlyOne_mapAfterLookup {W : Type} (env : Env W) (info : InterfaceInfo)
    (s : ModulesIoC W) (hm : allExactlyOne s.m_map = true) :
    allExactlyOne (mapAfterLookup env info s) = true := by
  unfold mapAfterLookup
  cases mapFind info.id s.m_map with
  | none => exact hm
  | some inj =>
    by_cases hp : inj.p = 0
    · by_cases hc : inj.c = 0
      · simp [hp, hc, hm]
      · simp only [hp, hc, ne_eq, not_true_eq_false, not_false_eq_true, if_true, if_false]
        exact allExactlyOne_applyReentries _ _ hm
    · simp [hp, hm]

theorem registerService_allExactlyOne {W : Type} (env : Env W) (module : Str)
    (info : InterfaceInfo) (p c : Nat) (s : ModulesIoC W)
    (hv : (Service.mk c module p).exactlyOne = true) (hm : allExactlyOne s.m_map = true) :
    allExactlyOne (registerService env module info p c s).state.m_map = true := by
  cases h : mapFind info.id s.m_map with
  | none =>
    rw [registerService_absent env module info p c s h]
    exact allExactlyOne_mapAssign _ _ _ hv hm
  | some e =>
    rw [registerService_present env module info p c s e h]
    cases env.ndebug <;> exact hm

theorem null_provider_state {W : Type} (env : Env W) (s : ModulesIoC W) :
    ((cAssert env (0 != 0) s).andThen fun _ s1 => Res.ret () s1).state = s := by
  cases hn : env.ndebug <;> simp [cAssert, hn, Res.andThen, Res.state]

/-- Every public member keeps the property that each entry has exactly one provider. -/
theorem runOp_allExactlyOne {W : Type} (env : Env W) (op : Op) (s : ModulesIoC W)
    (hm : allExactlyOne s.m_map = true) :
    allExactlyOne (runOp env op s).state.m_map = true := by
  cases op with
  | registerExportCreator sig module c =>
    obtain ⟨info, hI, _⟩ := getInterfaceInfo_total sig
    by_cases hc : c = 0
    · subst hc
      simp only [runOp, registerExportCreator, if_true, null_provider_state]
      exact hm
    · simp only [runOp]
      rw [registerExportCreator_nonnull env sig module info c s hI hc]
      exact registerService_allExactlyOne env module info 0 c s
        (exactlyOne_creator module c hc) hm
  | registerExport sig module p =>
    obtain ⟨info, hI, _⟩ := getInterfaceInfo_total sig
    by_cases hp : p = 0
    · subst hp
      simp only [runOp, registerExport, if_true, null_provider_state]
      exact hm
    · simp only [runOp]
      rw [registerExport_nonnull env sig module info p s hI hp]
      exact registerService_allExactlyOne env module info p 0 s
        (exactlyOne_instance module p hp) hm
  | registerExportNoDelete sig module p =>
    obtain ⟨info, hI, _⟩ := getInterfaceInfo_total sig
    by_cases hp : p = 0
    · subst hp
      simp only [runOp, registerExportNoDelete, if_true, null_provider_state]
      exact hm
    · simp only [runOp]
      rw [registerExportNoDelete_nonnull env sig module info p s hI hp]
      exact registerService_allExactlyOne env module info p 0 s
        (exactlyOne_instance module p hp) hm
  | registerExportShared sig module p =>
    obtain ⟨info, hI, _⟩ := getInterfaceInfo_total sig
    by_cases hp : p = 0
    · subst hp
      simp only [runOp, registerExportShared, if_true, null_provider_state]
      exact hm
    · simp only [runOp]
      rw [registerExportShared_nonnull env sig module info p s hI hp]
      exact registerService_allExactlyOne env module info p 0 s
        (exactlyOne_instance module p hp) hm
  | registerInternalCreator sig module c =>
    obtain ⟨info, hI, _⟩ := getInterfaceInfo_total sig
    by_cases hc : c = 0
    · subst hc
      simp only [runOp, registerInternalCreator, if_true, null_provider_state]
      exact hm
    · simp only [runOp]
      rw [registerInternalCreator_nonnull env sig module info c s hI hc]
      exact registerService_allExactlyOne env module info 0 c s
        (exactlyOne_creator module c hc) hm
  | registerInternal sig module p =>
    obtain ⟨info, hI, _⟩ := getInterfaceInfo_total sig
    by_cases hp : p = 0
    · subst hp
      simp only [runOp, registerInternal, if_true, null_provider_state]
      exact hm
    · simp only [runOp]
      rw [registerInternal_nonnull env sig module info p s hI hp]
      exact registerService_allExactlyOne env module info p 0 s
        (exactlyOne_instance module p hp) hm
  | registerInternalNoDelete sig module p =>
    obtain ⟨info, hI, _⟩ := getInterfaceInfo_total sig
    by_cases hp : p = 0
    · subst hp
      simp only [runOp, registerInternalNoDelete, if_true, null_provider_state]
      exact hm
    · simp only [runOp]
      rw [registerInternalNoDelete_nonnull env sig module info p s hI hp]
      exact registerService_allExactlyOne env module info p 0 s
        (exactlyOne_instance module p hp) hm
  | registerInternalShared sig module p =>
    obtain ⟨info, hI, _⟩ := getInterfaceInfo_total sig
    by_cases hp : p = 0
    · subst hp
      simp only [runOp, registerInternalShared, if_true, null_provider_state]
      exact hm
    · simp only [runOp]
      rw [registerInternalShared_nonnull env sig module info p s hI hp]
      exact registerService_allExactlyOne env module info p 0 s
        (exactlyOne_instance module p hp) hm
  | unregister sig module =>
    obtain ⟨info, hI, _⟩ := getInterfaceInfo_total sig
    simp only [runOp]
    rw [unregister_eq sig module info s hI]
    exact allExactlyOne_mapErase _ _ hm
  | unregisterIfRegistered sig module p =>
    obtain ⟨info, hI, _⟩ := getInterfaceInfo_total sig
    obtain ⟨v, s1, h1, h2⟩ := lookupService_ret env info s
    have hm1 := allExactlyOne_mapAfterLookup env info s hm
    simp only [runOp, unregisterIfRegistered]
    rw [resolve_eq_lookupService env sig module [] info s hI, h1]
    by_cases hv : v = p
    · simp only [Res.andThen, hv, if_true]
      rw [unregister_eq sig module info s1 hI]
      simp only [Res.state]
      rw [h2]
      exact allExactlyOne_mapErase _ _ hm1
    · simp only [Res.andThen, hv, if_false, Res.state]
      rw [h2]
      exact hm1
  | resolve sig module callInfo =>
    obtain ⟨info, hI, _⟩ := getInterfaceInfo_total sig
    have h := resolve_m_map env sig module callInfo info s hI
    have hm1 := allExactlyOne_mapAfterLookup env info s hm
    simp only [runOp, Res.discard]
    cases hr : resolve env sig module callInfo s <;>
      rw [hr] at h <;> simp only [Res.andThen, Res.state] at h ⊢ <;> rw [h] <;> exact hm1
  | resolveRequiredImport sig module =>
    obtain ⟨info, hI, _⟩ := getInterfaceInfo_total sig
    have h := resolveRequiredImport_m_map env sig module info s hI
    have hm1 := allExactlyOne_mapAfterLookup env info s hm
    simp only [runOp, Res.discard]
    cases hr : resolveRequiredImport env sig module s <;>
      rw [hr] at h <;> simp only [Res.andThen, Res.state] at h ⊢ <;> rw [h] <;> exact hm1
  | reset =>
    simp [runOp, reset, Res.state, allExactlyOne]

theorem runOps_allExactlyOne {W : Type} (env : Env W) (ops : List Op) (s : ModulesIoC W)
    (hm : allExactlyOne s.m_map = true) :
    allExactlyOne (runOps env ops s).state.m_map = true := by
  induction ops generalizing s with
  | nil => exact hm
  | cons op ops ih =>
    have h := runOp_allExactlyOne env op s hm
    simp only [runOps]
    cases hr : runOp env op s with
    | ret a s1 =>
      rw [hr] at h
      exact ih s1 h
    | aborted s1 =>
      rw [hr] at h
      exact h
    | threw s1 =>
      rw [hr] at h
      exact h


/-- The calls of `Reentry` do to `m_map` what the public members they stand for do. -/
theorem applyReentry_matches_members {W : Type} (env : Env W) (sig module : Str)
    (p c : Nat) (s : ModulesIoC W) :
    (∀ r ∈ [registerExport env sig module p s, registerExportShared env sig module p s,
          registerExportNoDelete env sig module p s, registerInternal env sig module p s,
          registerInternalShared env sig module p s,
          registerInternalNoDelete env sig module p s],
        r.state.m_map = applyReentry (Reentry.registerInstance sig module p) s.m_map)
    ∧ (∀ r ∈ [registerExportCreator env sig module c s,
          registerInternalCreator env sig module c s],
        r.state.m_map = applyReentry (Reentry.registerCreator sig module c) s.m_map)
    ∧ (unregister sig module s).state.m_map = applyReentry (Reentry.unregister sig) s.m_map
    ∧ (reset s).state.m_map = applyReentry Reentry.reset s.m_map := by
  obtain ⟨info, hI, _⟩ := getInterfaceInfo_total sig
  have hreg : ∀ p2 c2, (registerService env module info p2 c2 s).state.m_map
      = (match mapFind info.id s.m_map with
          | some _ => s.m_map
          | none => mapAssign info.id { c := c2, sourceModule := module, p := p2 } s.m_map) := by
    intro p2 c2
    cases h : mapFind info.id s.m_map with
    | none => rw [registerService_absent env module info p2 c2 s h]; rfl
    | some e =>
      rw [registerService_present env module info p2 c2 s e h]
      cases env.ndebug <;> rfl
  refine ⟨?_, ?_, ?_, rfl⟩
  · intro r hr
    simp only [List.mem_cons, List.mem_singleton, List.not_mem_nil, or_false] at hr
    by_cases hp : p = 0
    · subst hp
      have h0 := null_provider_state env s
      rcases hr with h | h | h | h | h | h <;> subst h <;>
        simp only [registerExport, registerExportShared, registerExportNoDelete,
          registerInternal, registerInternalShared, registerInternalNoDelete, if_true, h0,
          applyReentry]
    · have hr2 : r = registerService env module info p 0 s := by
        rcases hr with h | h | h | h | h | h <;> subst h
        · exact registerExport_nonnull env sig module info p s hI hp
        · exact registerExportShared_nonnull env sig module info p s hI hp
        · exact registerExportNoDelete_nonnull env sig module info p s hI hp
        · exact registerInternal_nonnull env sig module info p s hI hp
        · exact registerInternalShared_nonnull env sig module info p s hI hp
        · exact registerInternalNoDelete_nonnull env sig module info p s hI hp
      rw [hr2, hreg]
      simp only [applyReentry, hp, if_false, hI]
  · intro r hr
    simp only [List.mem_cons, List.mem_singleton, List.not_mem_nil, or_false] at hr
    by_cases hc : c = 0
    · subst hc
      have h0 := null_provider_state env s
      rcases hr with h | h <;> subst h <;>
        simp only [registerExportCreator, registerInternalCreator, if_true, h0, applyReentry]
    · have hr2 : r = registerService env module info 0 c s := by
        rcases hr with h | h <;> subst h
        · exact registerExportCreator_nonnull env sig module info c s hI hc
        · exact registerInternalCreator_nonnull env sig module info c s hI hc
      rw [hr2, hreg]
      simp only [applyReentry, hc, if_false, hI]
  · rw [unregister_eq sig module info s hI]
    simp [applyReentry, hI, Res.state]

/-! The claims on the extraction rules. -/

set_option maxRecDepth 100000 in
theorem sigHead_clean : occurs "[with ".toList sigHead = false := by
  decide

set_option maxRecDepth 100000 in
theorem sigUpdateConfiguration_parts :
    sigUpdateConfiguration
      = sigHead ++ "[with ".toList ++ "I = mu".toList ++ "::".toList ++ "update".toList
        ++ "::".toList ++ "IUpdateConfiguration]".toList := by
  decide

set_option maxRecDepth 100000 in
theorem sigUpdateConfiguration_size : sigUpdateConfiguration.length < 2 ^ 64 := by
  decide

/-- C11, at an input: the signature of the note in `moduleinfo.h` gives `update`. -/
theorem moduleNameByInterface_returns_module_witness :
    occurs "[with ".toList sigHead = false
    ∧ ':' ∉ "I = mu".toList ∧ ':' ∉ "update".toList
    ∧ (sigHead ++ "[with ".toList ++ "I = mu".toList ++ "::".toList ++ "update".toList
        ++ "::".toList ++ "IUpdateConfiguration]".toList).length < 2 ^ 64
    ∧ moduleNameByInterface (sigHead ++ "[with ".toList ++ "I = mu".toList ++ "::".toList
        ++ "update".toList ++ "::".toList ++ "IUpdateConfiguration]".toList)
      = some "update".toList :=
  ⟨sigHead_clean, by decide, by decide,
    sigUpdateConfiguration_parts ▸ sigUpdateConfiguration_size,
    moduleNameByInterface_returns_module sigHead "I = mu".toList "update".toList
      "IUpdateConfiguration]".toList sigHead_clean (by decide) (by decide)
      (sigUpdateConfiguration_parts ▸ sigUpdateConfiguration_size)⟩

set_option maxRecDepth 100000 in
theorem sigUpdateConfiguration_name_parts :
    sigUpdateConfiguration
      = (sigHead ++ "[with I = mu::update".toList) ++ "::".toList
        ++ "IUpdateConfiguration".toList ++ "]".toList ++ [] := by
  decide

set_option maxRecDepth 100000 in
theorem sigHead_update_no_bracket : ']' ∉ sigHead ++ "[with I = mu::update".toList := by
  decide

/-- C12. For every text `pre ++ "::" ++ name ++ "]" ++ post` (of a size that fits
`std::size_t`) where `pre` and `name` contain no `]` and `name` contains no `:`,
`interfaceName` returns exactly `name`; so it returns `IUpdateConfiguration` for the
signature of the note in `moduleinfo.h`. -/
theorem interfaceName_returns_name (pre name post : Str) (hpre : ']' ∉ pre)
    (hname : ']' ∉ name) (hcolon : ':' ∉ name)
    (hsize : (pre ++ "::".toList ++ name ++ "]".toList ++ post).length < 2 ^ 64) :
    interfaceName (pre ++ "::".toList ++ name ++ "]".toList ++ post) = some name
    ∧ interfaceName sigUpdateConfiguration = some "IUpdateConfiguration".toList := by
  refine ⟨interfaceName_shape pre name post hpre hname hcolon hsize, ?_⟩
  rw [sigUpdateConfiguration_name_parts]
  exact interfaceName_shape _ _ _ sigHead_update_no_bracket (by decide) (by decide)
    (sigUpdateConfiguration_name_parts ▸ sigUpdateConfiguration_size)

/-- C12, at an input: the signature of the note in `moduleinfo.h` gives
`IUpdateConfiguration`. -/
theorem interfaceName_returns_name_witness :
    ']' ∉ sigHead ++ "[with I = mu::update".toList
    ∧ ']' ∉ "IUpdateConfiguration".toList ∧ ':' ∉ "IUpdateConfiguration".toList
    ∧ ((sigHead ++ "[with I = mu::update".toList) ++ "::".toList
        ++ "IUpdateConfiguration".toList ++ "]".toList ++ []).length < 2 ^ 64
    ∧ interfaceName ((sigHead ++ "[with I = mu::update".toList) ++ "::".toList
        ++ "IUpdateConfiguration".toList ++ "]".toList ++ [])
      = some "IUpdateConfiguration".toList :=
  ⟨sigHead_update_no_bracket, by decide, by decide,
    sigUpdateConfiguration_name_parts ▸ sigUpdateConfiguration_size,
    (interfaceName_returns_name (sigHead ++ "[with I = mu::update".toList)
      "IUpdateConfiguration".toList [] sigHead_update_no_bracket (by decide) (by decide)
      (sigUpdateConfiguration_name_parts ▸ sigUpdateConfiguration_size)).1⟩

set_option maxRecDepth 100000 in
theorem sigMethod_parts :
    sigMethod = "SomeType".toList ++ " ".toList ++ "mu".toList ++ "::".toList
      ++ "modulename".toList ++ "::".toList ++ "maybe::ClassName::methodName".toList
      ++ "(".toList ++ ")".toList := by
  decide

set_option maxRecDepth 100000 in
theorem sigMethod_size : sigMethod.length < 2 ^ 64 := by
  decide

/-- C13, at an input: the signature of the note in `moduleNameBySig` gives
`modulename`. -/
theorem moduleNameBySig_returns_module_witness :
    '(' ∉ "SomeType".toList
    ∧ (' ' ∉ "mu".toList ∧ ':' ∉ "mu".toList ∧ '(' ∉ "mu".toList)
    ∧ (' ' ∉ "modulename".toList ∧ ':' ∉ "modulename".toList ∧ '(' ∉ "modulename".toList)
    ∧ (' ' ∉ "maybe::ClassName::methodName".toList
        ∧ '(' ∉ "maybe::ClassName::methodName".toList)
    ∧ ("SomeType".toList ++ " ".toList ++ "mu".toList ++ "::".toList
        ++ "modulename".toList ++ "::".toList ++ "maybe::ClassName::methodName".toList
        ++ "(".toList ++ ")".toList).length < 2 ^ 64
    ∧ moduleNameBySig ("SomeType".toList ++ " ".toList ++ "mu".toList ++ "::".toList
        ++ "modulename".toList ++ "::".toList ++ "maybe::ClassName::methodName".toList
        ++ "(".toList ++ ")".toList) = some "modulename".toList :=
  ⟨by decide, by decide, by decide, by decide, sigMethod_parts ▸ sigMethod_size,
    moduleNameBySig_returns_module "SomeType".toList "mu".toList "modulename".toList
      "maybe::ClassName::methodName".toList ")".toList (by decide) (by decide) (by decide)
      (by decide) (sigMethod_parts ▸ sigMethod_size)⟩

/-- C14. For every text: `interfaceName` returns the whole text when it contains no `]`,
and when `::` does not occur before its first `]`; `moduleNameByInterface` returns the
whole text when `"[with "` does not occur in it, and when `::` does not occur at or
after its first `"[with "`. -/
theorem extraction_falls_back_to_input (sig pre post : Str) :
    (']' ∉ sig → interfaceName sig = some sig)
    ∧ (']' ∉ pre → occurs "::".toList pre = false →
        interfaceName (pre ++ "]".toList ++ post) = some (pre ++ "]".toList ++ post))
    ∧ (occurs "[with ".toList sig = false → moduleNameByInterface sig = some sig)
    ∧ (occurs "[with ".toList pre = false →
        occurs "::".toList ("[with ".toList ++ post) = false →
        moduleNameByInterface (pre ++ "[with ".toList ++ post)
          = some (pre ++ "[with ".toList ++ post)) := by
  refine ⟨interfaceName_no_bracket sig, ?_, moduleNameByInterface_no_with sig, ?_⟩
  · intro h1 h2
    exact interfaceName_no_colon_before pre post h1 h2
  · intro h1 h2
    exact moduleNameByInterface_no_colon_after pre post h1 h2

/-- C15, at a failing input: `void foo()` has its `(` and a space before it but no `:`.
`find_first_of` returns `npos`, `npos + 2` wraps to 1, and `moduleNameBySig` returns the
text from position 1 on, `oid foo()`, not the whole text. When a `:` stands before the
space, as in `a:b c(`, the result is empty. -/
theorem moduleNameBySig_without_colon :
    ':' ∉ "void foo()".toList
    ∧ moduleNameBySig "void foo()".toList = some "oid foo()".toList
    ∧ moduleNameBySig "void foo()".toList ≠ some "void foo()".toList
    ∧ moduleNameBySig "a:b c(".toList = some [] := by
  refine ⟨by decide, by decide, by decide, by decide⟩

set_option maxRecDepth 100000 in
theorem interfaceName_sigAudioConfiguration :
    interfaceName sigAudioConfiguration = some "IConfiguration".toList
    ∧ interfaceName sigMidiConfiguration = some "IConfiguration".toList
    ∧ sigAudioConfiguration ≠ sigMidiConfiguration := by
  decide

set_option maxRecDepth 100000 in
theorem getInterfaceInfo_sigAudioConfiguration :
    getInterfaceInfo sigAudioConfiguration
      = some ⟨"IConfiguration".toList, "audio".toList, false⟩
    ∧ getInterfaceInfo sigMidiConfiguration
      = some ⟨"IConfiguration".toList, "midi".toList, false⟩ := by
  decide

/-- C16, as stated, fails: the signatures of `mu::audio::IConfiguration` and of
`mu::midi::IConfiguration` are of the documented shape and differ in the qualified type
name, and `interfaceName` returns `IConfiguration` for both. The two types share the
registry key: after `registerExport<mu::audio::IConfiguration>` of the instance 7 in the
empty registry, `resolve<mu::midi::IConfiguration>` returns 7. -/
theorem interfaceName_shared_by_two_types :
    sigAudioConfiguration ≠ sigMidiConfiguration
    ∧ interfaceName sigAudioConfiguration = interfaceName sigMidiConfiguration
    ∧ (registerExport (countingEnv false) sigAudioConfiguration "audio".toList 7
          emptyIoC).andThen
        (fun _ s1 => resolve (countingEnv false) sigMidiConfiguration "midi".toList [] s1)
      = Res.ret 7
        { m_map := [("IConfiguration".toList, ⟨0, "audio".toList, 7⟩)],
          trace := [], world := 0 } := by
  obtain ⟨h1, h2, h3⟩ := interfaceName_sigAudioConfiguration
  obtain ⟨h4, h5⟩ := getInterfaceInfo_sigAudioConfiguration
  refine ⟨h3, by rw [h1, h2], ?_⟩
  rw [registerExport_nonnull (countingEnv false) sigAudioConfiguration "audio".toList _ 7
    emptyIoC h4 (by decide),
    registerService_absent (countingEnv false) "audio".toList _ 7 0 emptyIoC (by decide)]
  simp only [Res.andThen]
  rw [resolve_eq_lookupService (countingEnv false) sigMidiConfiguration "midi".toList [] _ _
    h5]
  rfl

/-- C16, amended. The identifier is the last segment of the qualified type name: for two
texts `pre1 ++ "::" ++ name1 ++ "]" ++ post1` and `pre2 ++ "::" ++ name2 ++ "]" ++ post2`
of the documented shape (no `]` in `pre` and `name`, no `:` in `name`), `interfaceName`
returns `name1` and `name2`, so the identifiers differ exactly when the last segments
differ, whatever the namespaces in `pre1` and `pre2`. -/
theorem interfaceName_differs_iff_last_segment (pre1 name1 post1 pre2 name2 post2 : Str)
    (h1 : ']' ∉ pre1 ∧ ']' ∉ name1 ∧ ':' ∉ name1)
    (h2 : ']' ∉ pre2 ∧ ']' ∉ name2 ∧ ':' ∉ name2)
    (hs1 : (pre1 ++ "::".toList ++ name1 ++ "]".toList ++ post1).length < 2 ^ 64)
    (hs2 : (pre2 ++ "::".toList ++ name2 ++ "]".toList ++ post2).length < 2 ^ 64) :
    interfaceName (pre1 ++ "::".toList ++ name1 ++ "]".toList ++ post1) = some name1
    ∧ interfaceName (pre2 ++ "::".toList ++ name2 ++ "]".toList ++ post2) = some name2
    ∧ (interfaceName (pre1 ++ "::".toList ++ name1 ++ "]".toList ++ post1)
        ≠ interfaceName (pre2 ++ "::".toList ++ name2 ++ "]".toList ++ post2)
      ↔ name1 ≠ name2) := by
  have e1 := interfaceName_shape pre1 name1 post1 h1.1 h1.2.1 h1.2.2 hs1
  have e2 := interfaceName_shape pre2 name2 post2 h2.1 h2.2.1 h2.2.2 hs2
  refine ⟨e1, e2, ?_⟩
  rw [e1, e2]
  simp

set_option maxRecDepth 100000 in
theorem sigAudio_sigUpdate_facts :
    (']' ∉ sigHead ++ "[with I = mu::audio".toList)
    ∧ ((sigHead ++ "[with I = mu::audio".toList) ++ "::".toList
        ++ "IConfiguration".toList ++ "]".toList ++ []).length < 2 ^ 64 := by
  decide

/-- C16 amended, at an input: `mu::audio::IConfiguration` and
`mu::update::IUpdateConfiguration` get different identifiers. -/
theorem interfaceName_differs_iff_last_segment_witness :
    (']' ∉ sigHead ++ "[with I = mu::audio".toList
      ∧ ']' ∉ "IConfiguration".toList ∧ ':' ∉ "IConfiguration".toList)
    ∧ (']' ∉ sigHead ++ "[with I = mu::update".toList
      ∧ ']' ∉ "IUpdateConfiguration".toList ∧ ':' ∉ "IUpdateConfiguration".toList)
    ∧ interfaceName ((sigHead ++ "[with I = mu::audio".toList) ++ "::".toList
        ++ "IConfiguration".toList ++ "]".toList ++ [])
      ≠ interfaceName ((sigHead ++ "[with I = mu::update".toList) ++ "::".toList
        ++ "IUpdateConfiguration".toList ++ "]".toList ++ []) :=
  ⟨⟨sigAudio_sigUpdate_facts.1, by decide, by decide⟩,
    ⟨sigHead_update_no_bracket, by decide, by decide⟩,
    (interfaceName_differs_iff_last_segment (sigHead ++ "[with I = mu::audio".toList)
      "IConfiguration".toList [] (sigHead ++ "[with I = mu::update".toList)
      "IUpdateConfiguration".toList []
      ⟨sigAudio_sigUpdate_facts.1, by decide, by decide⟩
      ⟨sigHead_update_no_bracket, by decide, by decide⟩
      sigAudio_sigUpdate_facts.2
      (sigUpdateConfiguration_name_parts ▸ sigUpdateConfiguration_size)).2.2.mpr
      (by decide)⟩


/-! The claims on resolution and on sequences of calls. -/

/-- C17. For every state, info with `internal` set and requesting module other than
`info.module`: in a build with `NDEBUG` the call `doResolvePtrByInfo` writes the
internal-usage line and goes on with the lookup, so that it returns, and returns the
handle the call from `info.module` itself returns (the stored instance, or the result of
the creator, or the empty handle), with the `m_map` and the world that call leaves
(`m_map` as it was, but for what a creator called by the lookup does to it); in a build
without `NDEBUG` the process is terminated right after the line is written. -/
theorem internal_usage_by_build {W : Type} (env : Env W) (usageModule callInfo : Str)
    (info : InterfaceInfo) (s : ModulesIoC W) (hi : info.internal = true)
    (hm : usageModule ≠ info.module) :
    (env.ndebug = true →
      doResolvePtrByInfo env usageModule info callInfo s
          = lookupService env info (writeCerr (internalUsageLine usageModule info callInfo) s)
      ∧ (doResolvePtrByInfo env usageModule info callInfo s).returned = true
      ∧ (doResolvePtrByInfo env usageModule info callInfo s).value
          = (doResolvePtrByInfo env info.module info callInfo s).value
      ∧ (doResolvePtrByInfo env usageModule info callInfo s).value
          = some (match mapFind info.id s.m_map with
              | none => 0
              | some inj =>
                if inj.p ≠ 0 then inj.p
                else if inj.c ≠ 0 then (env.create inj.c s.m_map s.world).handle else 0)
      ∧ (doResolvePtrByInfo env usageModule info callInfo s).state.m_map
          = (doResolvePtrByInfo env info.module info callInfo s).state.m_map
      ∧ (doResolvePtrByInfo env usageModule info callInfo s).state.world
          = (doResolvePtrByInfo env info.module info callInfo s).state.world
      ∧ (doResolvePtrByInfo env usageModule info callInfo s).state.m_map
          = mapAfterLookup env info s
      ∧ ((mapFind info.id s.m_map = none
            ∨ ∃ e, mapFind info.id s.m_map = some e
              ∧ (e.p ≠ 0 ∨ e.c = 0
                ∨ applyReentries (env.create e.c s.m_map s.world).calls s.m_map = s.m_map)) →
          (doResolvePtrByInfo env usageModule info callInfo s).state.m_map = s.m_map))
    ∧ (env.ndebug = false →
      doResolvePtrByInfo env usageModule info callInfo s
          = Res.aborted (writeCerr (internalUsageLine usageModule info callInfo) s)) := by
  constructor
  · intro hn
    have h1 : doResolvePtrByInfo env usageModule info callInfo s
        = lookupService env info
            (writeCerr (internalUsageLine usageModule info callInfo) s) := by
      simp [doResolvePtrByInfo, checkInternal, hi, hm, hn, Res.andThen]
    have h2 : doResolvePtrByInfo env info.module info callInfo s
        = lookupService env info s := by
      simp [doResolvePtrByInfo, checkInternal, hi, Res.andThen]
    obtain ⟨v, s1, h3, h4⟩ := lookupService_ret env info
      (writeCerr (internalUsageLine usageModule info callInfo) s)
    obtain ⟨v0, s0, h5, h6⟩ := lookupService_ret env info s
    have h7 : lookupService env info
        (writeCerr (internalUsageLine usageModule info callInfo) s)
        = Res.ret v0 { s0 with trace := s1.trace } := by
      rw [h3]
      have e1 : lookupService env info
          (writeCerr (internalUsageLine usageModule info callInfo) s)
          = Res.ret v s1 := h3
      unfold lookupService at e1 h5
      simp only [writeCerr] at e1
      cases hf : mapFind info.id s.m_map with
      | none =>
        simp only [hf] at e1 h5
        cases e1
        cases h5
        rfl
      | some inj =>
        simp only [hf] at e1 h5
        by_cases hp : inj.p = 0
        · by_cases hc : inj.c = 0
          · simp only [hp, hc, ne_eq, not_true_eq_false, if_false] at e1 h5
            cases e1
            cases h5
            rfl
          · simp only [hp, hc, ne_eq, not_true_eq_false, not_false_eq_true, if_true,
              if_false] at e1 h5
            cases e1
            cases h5
            rfl
        · simp only [hp, ne_eq, not_false_eq_true, if_true] at e1 h5
          cases e1
          cases h5
          rfl
    have hmap : (doResolvePtrByInfo env usageModule info callInfo s).state.m_map
        = mapAfterLookup env info s := by
      rw [h1, h7]
      exact h6
    refine ⟨h1, ?_, ?_, ?_, ?_, ?_, hmap, ?_⟩
    · rw [h1, h3]
      rfl
    · rw [h1, h2, lookupService_value, lookupService_value]
      rfl
    · rw [h1, lookupService_value]
      rfl
    · rw [h1, h2, h7, h5]
      rfl
    · rw [h1, h2, h7, h5]
      rfl
    · intro hcase
      rw [hmap]
      exact mapAfterLookup_keep env info s hcase
  · intro hn
    simp [doResolvePtrByInfo, checkInternal, hi, hm, hn, Res.andThen]

/-- C17, at an input: an internal interface of module `update` holding the instance 7 is
resolved from module `other`, in a build with `NDEBUG`: the line is written and 7 is
returned. -/
theorem internal_usage_by_build_witness :
    (⟨"IUpdateConfiguration".toList, "update".toList, true⟩ : InterfaceInfo).internal = true
    ∧ "other".toList
        ≠ (⟨"IUpdateConfiguration".toList, "update".toList, true⟩ : InterfaceInfo).module
    ∧ (doResolvePtrByInfo (countingEnv true) "other".toList
        ⟨"IUpdateConfiguration".toList, "update".toList, true⟩ []
        { emptyIoC with
          m_map := [("IUpdateConfiguration".toList, ⟨0, "update".toList, 7⟩)] }).value
      = some 7 :=
  ⟨rfl, by decide,
    ((internal_usage_by_build (countingEnv true) "other".toList []
      ⟨"IUpdateConfiguration".toList, "update".toList, true⟩
      { emptyIoC with m_map := [("IUpdateConfiguration".toList, ⟨0, "update".toList, 7⟩)] }
      rfl (by decide)).1 rfl).2.2.2.1⟩

/-- C18, as stated, fails for a factory-backed identifier whose creator calls
`unregister<I>` on the singleton from `create()`: the registry holds the creator 3 for
`IUpdateConfiguration`, and after `resolve` (and after `resolveRequiredImport`), which
returns the created handle 103, the map is empty. -/
theorem resolve_with_unregistering_creator :
    getInterfaceInfo sigUpdateConfiguration = some infoUpdateConfiguration
    ∧ mapFind infoUpdateConfiguration.id
        [("IUpdateConfiguration".toList, (⟨3, "update".toList, 0⟩ : Service))]
      = some ⟨3, "update".toList, 0⟩
    ∧ resolve (unregisteringEnv true sigUpdateConfiguration) sigUpdateConfiguration
        "update".toList []
        { emptyIoC with m_map := [("IUpdateConfiguration".toList, ⟨3, "update".toList, 0⟩)] }
      = Res.ret 103 { m_map := [], trace := [Event.create 3], world := 1 }
    ∧ (resolveRequiredImport (unregisteringEnv true sigUpdateConfiguration)
        sigUpdateConfiguration "update".toList
        { emptyIoC with
          m_map := [("IUpdateConfiguration".toList, ⟨3, "update".toList, 0⟩)] }).state.m_map
      = []
    ∧ ([] : ServiceMap) ≠ [("IUpdateConfiguration".toList, ⟨3, "update".toList, 0⟩)] := by
  have h1 := (resolve_unregisteringEnv true "update".toList [] [] 0).1
  simp only [List.nil_append] at h1
  refine ⟨getInterfaceInfo_sigUpdateConfiguration, by decide, h1, ?_, by decide⟩
  rw [resolveRequiredImport_eq _ _ _ _ _ getInterfaceInfo_sigUpdateConfiguration]
  simp only [emptyIoC, h1, Res.andThen]
  rfl

/-- C18, amended. Resolution writes `m_map` only through the creator it calls. For every
state, capability type, info, requesting module and hint: `m_map` at the end of
`resolve<I>`, of `resolveRequiredImport<I>` and of `doResolvePtrByInfo` (when it gets to
the lookup) is the map the lookup leaves; that map is `m_map` at the start when the
identifier has no entry, when its entry holds an instance, and when `create()` of its
creator leaves `m_map` as it found it; for any other factory-backed identifier it is
`m_map` after the calls `create()` made on the registry. When the entry holds an
instance, a `resolve<I>` after a `resolve<I>` returns that instance again. -/
theorem resolution_keeps_m_map {W : Type} (env : Env W)
    (sig module callInfo module2 callInfo2 : Str) (info : InterfaceInfo)
    (s : ModulesIoC W) :
    (getInterfaceInfo sig = some info →
      (resolve env sig module callInfo s).state.m_map = mapAfterLookup env info s
      ∧ (resolveRequiredImport env sig module s).state.m_map = mapAfterLookup env info s)
    ∧ (doResolvePtrByInfo env module info callInfo s).state.m_map
        = (if info.internal = true ∧ module ≠ info.module ∧ env.ndebug = false
            then s.m_map else mapAfterLookup env info s)
    ∧ ((mapFind info.id s.m_map = none
          ∨ ∃ e, mapFind info.id s.m_map = some e
            ∧ (e.p ≠ 0 ∨ e.c = 0
              ∨ applyReentries (env.create e.c s.m_map s.world).calls s.m_map = s.m_map)) →
        mapAfterLookup env info s = s.m_map
        ∧ (doResolvePtrByInfo env module info callInfo s).state.m_map = s.m_map
        ∧ (getInterfaceInfo sig = some info →
            (resolve env sig module callInfo s).state.m_map = s.m_map
            ∧ (resolveRequiredImport env sig module s).state.m_map = s.m_map))
    ∧ (∀ e, mapFind info.id s.m_map = some e → e.p = 0 → e.c ≠ 0 →
        mapAfterLookup env info s
          = applyReentries (env.create e.c s.m_map s.world).calls s.m_map)
    ∧ (∀ i e, getInterfaceInfo sig = some i → mapFind i.id s.m_map = some e → e.p ≠ 0 →
        resolve env sig module callInfo s = Res.ret e.p s
        ∧ resolve env sig module2 callInfo2 (resolve env sig module callInfo s).state
            = Res.ret e.p s) := by
  have hd := doResolvePtrByInfo_m_map env module info callInfo s
  refine ⟨fun hI => ⟨resolve_m_map env sig module callInfo info s hI,
    resolveRequiredImport_m_map env sig module info s hI⟩, hd, ?_,
    fun e he hp hc => mapAfterLookup_creator env info s e he hp hc, ?_⟩
  · intro hcase
    have hk := mapAfterLookup_keep env info s hcase
    refine ⟨hk, ?_, fun hI => ⟨?_, ?_⟩⟩
    · rw [hd, hk]
      simp
    · rw [resolve_m_map env sig module callInfo info s hI, hk]
    · rw [resolveRequiredImport_m_map env sig module info s hI, hk]
  · intro i e hI he hp
    have h1 : resolve env sig module callInfo s = Res.ret e.p s := by
      rw [resolve_eq_lookupService env sig module callInfo i s hI]
      exact lookupService_instance env i s e he hp
    refine ⟨h1, ?_⟩
    rw [h1]
    simp only [Res.state]
    rw [resolve_eq_lookupService env sig module2 callInfo2 i s hI]
    exact lookupService_instance env i s e he hp

/-- C19. For every build, creator table, world and sequence of calls of the public
members (the eight registration members, `unregister`, `unregisterIfRegistered`,
`resolve`, `resolveRequiredImport`, `reset`, with any arguments), run from the empty
registry, every entry of `m_map` at the end (or where the process was terminated) has
exactly one of its instance and its creator set. The same holds from any state whose
entries have the property. -/
theorem entries_have_exactly_one_provider {W : Type} (env : Env W) (ops : List Op)
    (w : W) (tr : List Event) (s : ModulesIoC W) :
    allExactlyOne (runOps env ops { m_map := [], trace := tr, world := w }).state.m_map
        = true
    ∧ (allExactlyOne s.m_map = true → allExactlyOne (runOps env ops s).state.m_map = true) := by
  constructor
  · exact runOps_allExactlyOne env ops _ rfl
  · intro h
    exact runOps_allExactlyOne env ops s h

set_option maxRecDepth 100000 in
theorem sigHashOfArray_facts :
    sigHashOfArray = sigHead ++ "[with ".toList ++ "I = mu".toList ++ "::".toList
      ++ "IHash<int []>".toList ++ "]".toList
    ∧ moduleNameByInterface sigHashOfArray = some "IHash<int []>".toList
    ∧ interfaceName sigHashOfArray = some "IHash<int [".toList := by
  decide

/-- C20, as stated, fails: the signature of `mu::IHash<int []>` is of the shape of the
claim (`"[with "` does not occur before the clause, `I = mu` and `IHash<int []>` contain
no `:`), `moduleNameByInterface` returns `IHash<int []>`, and `interfaceName`, which
stops at the first `]`, returns `IHash<int [`. -/
theorem moduleNameByInterface_differs_from_interfaceName :
    sigHashOfArray = sigHead ++ "[with ".toList ++ "I = mu".toList ++ "::".toList
      ++ "IHash<int []>".toList ++ "]".toList
    ∧ occurs "[with ".toList sigHead = false
    ∧ ':' ∉ "I = mu".toList ∧ ':' ∉ "IHash<int []>".toList
    ∧ moduleNameByInterface sigHashOfArray = some "IHash<int []>".toList
    ∧ interfaceName sigHashOfArray = some "IHash<int [".toList
    ∧ moduleNameByInterface sigHashOfArray ≠ interfaceName sigHashOfArray := by
  obtain ⟨h1, h2, h3⟩ := sigHashOfArray_facts
  refine ⟨h1, sigHead_clean, by decide, by decide, h2, h3, ?_⟩
  rw [h2, h3]
  decide

/-- C20, amended. For every text `pre ++ "[with " ++ a ++ "::" ++ name ++ "]"` (of a size
that fits `std::size_t`) where `"[with "` does not occur in `pre` and neither `a` nor
`name` contains `:`, `moduleNameByInterface` returns `name`, the text after the
separator without the closing bracket; when moreover none of `pre`, `a` and `name`
contains `]`, `interfaceName` returns `name` too. -/
theorem moduleNameByInterface_single_segment (pre a name : Str)
    (hpre : occurs "[with ".toList pre = false) (ha : ':' ∉ a) (hname : ':' ∉ name)
    (hsize : (pre ++ "[with ".toList ++ a ++ "::".toList ++ name ++ "]".toList).length
      < 2 ^ 64) :
    moduleNameByInterface (pre ++ "[with ".toList ++ a ++ "::".toList ++ name ++ "]".toList)
      = some name
    ∧ (']' ∉ pre → ']' ∉ a → ']' ∉ name →
        interfaceName (pre ++ "[with ".toList ++ a ++ "::".toList ++ name ++ "]".toList)
          = some name) := by
  refine ⟨moduleNameByInterface_shape_last pre a name hpre ha hname hsize, ?_⟩
  intro h1 h2 h3
  have e : pre ++ "[with ".toList ++ a ++ "::".toList ++ name ++ "]".toList
      = (pre ++ "[with ".toList ++ a) ++ "::".toList ++ name ++ "]".toList ++ [] := by simp
  rw [e]
  rw [e] at hsize
  exact interfaceName_shape (pre ++ "[with ".toList ++ a) name []
    (by simp [with_toList, h1, h2]) h3 hname hsize

set_option maxRecDepth 100000 in
theorem sigCryptographicHash_size :
    (sigHead ++ "[with ".toList ++ "I = mu".toList ++ "::".toList
      ++ "ICryptographicHash".toList ++ "]".toList).length < 2 ^ 64 := by
  decide

/-- C20 amended, at an input: the signature of `mu::ICryptographicHash` gives
`ICryptographicHash` as the module name. -/
theorem moduleNameByInterface_single_segment_witness :
    occurs "[with ".toList sigHead = false
    ∧ ':' ∉ "I = mu".toList ∧ ':' ∉ "ICryptographicHash".toList
    ∧ (sigHead ++ "[with ".toList ++ "I = mu".toList ++ "::".toList
        ++ "ICryptographicHash".toList ++ "]".toList).length < 2 ^ 64
    ∧ moduleNameByInterface (sigHead ++ "[with ".toList ++ "I = mu".toList ++ "::".toList
        ++ "ICryptographicHash".toList ++ "]".toList) = some "ICryptographicHash".toList :=
  ⟨sigHead_clean, by decide, by decide, sigCryptographicHash_size,
    (moduleNameByInterface_single_segment sigHead "I = mu".toList
      "ICryptographicHash".toList sigHead_clean (by decide) (by decide)
      sigCryptographicHash_size).1⟩

/-! The claims on the visibility of interfaces and on the range of `substr`. -/

/-- The lookup returns and adds no line to `std::cerr`. -/
theorem lookupService_ret_trace {W : Type} (env : Env W) (info : InterfaceInfo)
    (s : ModulesIoC W) :
    ∃ v s1 l, lookupService env info s = Res.ret v s1 ∧ s1.trace = s.trace ++ l
      ∧ (∀ line, Event.cerr line ∉ l) ∧ s1.m_map = mapAfterLookup env info s := by
  obtain ⟨v, s1, h1, h2⟩ := lookupService_ret env info s
  obtain ⟨l, h3, h4⟩ := lookupService_trace env info s
  rw [h1] at h3
  exact ⟨v, s1, l, h1, h3, h4, h2⟩

theorem notFoundLine_ne_internalUsageLine (info info2 : InterfaceInfo)
    (usageModule callInfo : Str) :
    notFoundLine info ≠ internalUsageLine usageModule info2 callInfo := by
  intro h
  have h1 : (notFoundLine info).head? = some 'n' := rfl
  have h2 : (internalUsageLine usageModule info2 callInfo).head? = some 'A' := rfl
  rw [h, h2] at h1
  exact absurd h1 (by decide)

/-- C21. For every capability type, `getInterfaceInfo<I>()` returns an info with
`internal` false, whatever the state of the registry, and the `registerInternal*`
members do what the `registerExport*` members do. Hence for every state, requesting
module and hint: `resolve<I>` is the plain lookup, returns to its caller and writes no
line; the only line `resolveRequiredImport<I>` can write is the not-found line, which is
never the internal-usage line; and `resolveRequiredImport<I>` ends without returning only
in a build without `NDEBUG` when the lookup gave the empty handle. -/
theorem interface_info_never_internal {W : Type} (env : Env W) (sig module callInfo : Str)
    (p c : Nat) (s : ModulesIoC W) :
    (∀ info, getInterfaceInfo sig = some info → info.internal = false)
    ∧ (∃ info, getInterfaceInfo sig = some info ∧ info.internal = false
        ∧ resolve env sig module callInfo s = lookupService env info s
        ∧ (∀ line, Event.cerr line ∈ emitted s (resolveRequiredImport env sig module s) →
            line = notFoundLine info))
    ∧ registerInternal env sig module p s = registerExport env sig module p s
    ∧ registerInternalNoDelete env sig module p s = registerExportNoDelete env sig module p s
    ∧ registerInternalShared env sig module p s = registerExportShared env sig module p s
    ∧ registerInternalCreator env sig module c s = registerExportCreator env sig module c s
    ∧ (resolve env sig module callInfo s).returned = true
    ∧ (∀ line, Event.cerr line ∉ emitted s (resolve env sig module callInfo s))
    ∧ (∀ info info2 usageModule hint,
        notFoundLine info ≠ internalUsageLine usageModule info2 hint)
    ∧ ((resolveRequiredImport env sig module s).returned = false →
        env.ndebug = false ∧ (resolve env sig module [] s).value = some 0) := by
  obtain ⟨info, hI, hint⟩ := getInterfaceInfo_total sig
  have hres : ∀ ci, resolve env sig module ci s = lookupService env info s :=
    fun ci => resolve_eq_lookupService env sig module ci info s hI
  obtain ⟨v, s1, l, h1, h2, h3, _⟩ := lookupService_ret_trace env info s
  have hreq := resolveRequiredImport_eq env sig module info s hI
  rw [hres [], h1] at hreq
  refine ⟨fun i hi => getInterfaceInfo_internal sig i hi, ⟨info, hI, hint, hres callInfo, ?_⟩,
    rfl, rfl, rfl, rfl, ?_, ?_, notFoundLine_ne_internalUsageLine, ?_⟩
  · intro line hl
    by_cases hv : v = 0
    · have he : emitted s (resolveRequiredImport env sig module s)
          = l ++ [Event.cerr (notFoundLine info)] := by
        apply emitted_append
        rw [hreq]
        cases hn : env.ndebug <;>
          simp [Res.andThen, hv, cAssert, hn, Res.state, writeCerr, h2]
      rw [he] at hl
      rcases List.mem_append.mp hl with h | h
      · exact absurd h (h3 line)
      · simpa using h
    · have he : emitted s (resolveRequiredImport env sig module s) = l := by
        apply emitted_append
        rw [hreq]
        simp [Res.andThen, hv, Res.state, h2]
      rw [he] at hl
      exact absurd hl (h3 line)
  · rw [hres callInfo, h1]
    rfl
  · intro line
    have he : emitted s (resolve env sig module callInfo s) = l := by
      apply emitted_append
      rw [hres callInfo, h1]
      exact h2
    rw [he]
    exact h3 line
  · intro hret
    rw [hreq] at hret
    rw [hres [], h1]
    by_cases hv : v = 0
    · cases hn : env.ndebug
      · exact ⟨rfl, by simp [Res.value, hv]⟩
      · simp [Res.andThen, hv, cAssert, hn, Res.returned] at hret
    · simp [Res.andThen, hv, Res.returned] at hret

theorem substr_contiguous (sig r : Str) (pos n : Nat) (h : substr sig pos n = some r) :
    ∃ u v, sig = u ++ r ++ v := by
  unfold substr at h
  split at h
  · exact absurd h (by simp)
  · have hr : r = (sig.drop pos).take (min n (sig.length - pos)) := by
      simpa using h.symm
    refine ⟨sig.take pos, (sig.drop pos).drop (min n (sig.length - pos)), ?_⟩
    rw [hr, List.append_assoc, List.take_append_drop, List.take_append_drop]

theorem whole_contiguous (sig r : Str) (h : some sig = some r) : ∃ u v, sig = u ++ r ++ v := by
  have : sig = r := by simpa using h
  exact ⟨[], [], by simp [this]⟩

theorem interfaceName_contiguous (sig r : Str) (h : interfaceName sig = some r) :
    ∃ u v, sig = u ++ r ++ v := by
  unfold interfaceName at h
  simp only at h
  split at h
  · exact whole_contiguous sig r h
  · split at h
    · exact whole_contiguous sig r h
    · exact substr_contiguous sig r _ _ h

theorem moduleNameByInterface_contiguous (sig r : Str)
    (h : moduleNameByInterface sig = some r) : ∃ u v, sig = u ++ r ++ v := by
  unfold moduleNameByInterface at h
  simp only at h
  split at h
  · exact whole_contiguous sig r h
  · split at h
    · exact whole_contiguous sig r h
    · split at h
      · exact substr_contiguous sig r _ _ h
      · exact substr_contiguous sig r _ _ h

theorem moduleNameBySig_contiguous (sig r : Str) (h : moduleNameBySig sig = some r) :
    ∃ u v, sig = u ++ r ++ v := by
  unfold moduleNameBySig at h
  simp only at h
  split at h
  · exact whole_contiguous sig r h
  · split at h
    · exact whole_contiguous sig r h
    · exact substr_contiguous sig r _ _ h

/-- C22, at a failing input: in `void f():` the first `(` is at position 6, the last
space before it at position 4, and the first `:` from there is the last character, at
position 8; `beginModule` is 10, beyond the size 9, and `substr` throws
`std::out_of_range`. For every text, `interfaceName` and `moduleNameByInterface` return
(their `substr` start is within the text) and what they return is a contiguous part of
the text; so is what `moduleNameBySig` returns, when it returns. -/
theorem moduleNameBySig_out_of_range :
    moduleNameBySig "void f():".toList = none
    ∧ "void f():".toList.length = 9
    ∧ sizeAdd (find_first_of "void f():".toList "::".toList
        (find_last_of "void f():".toList " ".toList
          (find_first_of "void f():".toList "(".toList 0))) 2 = 10
    ∧ (∀ sig, ∃ r, interfaceName sig = some r ∧ ∃ u v, sig = u ++ r ++ v)
    ∧ (∀ sig, ∃ r, moduleNameByInterface sig = some r ∧ ∃ u v, sig = u ++ r ++ v)
    ∧ (∀ sig r, moduleNameBySig sig = some r → ∃ u v, sig = u ++ r ++ v) := by
  refine ⟨by decide, by decide, by decide, ?_, ?_, moduleNameBySig_contiguous⟩
  · intro sig
    obtain ⟨r, hr⟩ := interfaceName_total sig
    exact ⟨r, hr, interfaceName_contiguous sig r hr⟩
  · intro sig
    obtain ⟨r, hr⟩ := moduleNameByInterface_total sig
    exact ⟨r, hr, moduleNameByInterface_contiguous sig r hr⟩


end mu.modularity
